import Mathlib

/-!
Verification of the `silver-zepp/zeppos-timezones` library
(`src/tz-npm/dist/tz-import.src.js`), a shallow embedding in Lean 4.

Modelling conventions:
* JS `Date` timestamps are `Int` milliseconds since the Unix epoch; the
  proleptic Gregorian calendar arithmetic of ECMAScript `Date.UTC`,
  `getUTCDay`, `getUTCDate`, `getUTCMonth`, `setUTCDate` is implemented
  with the standard civil-calendar day-count algorithms.
* JS strings are `List Char`; `String.prototype.split`, `replace`,
  `padStart`, `parseInt` and the two regular expressions of the source
  are implemented structurally.
* JS numbers that the library produces by exact integer arithmetic are
  `Int`/`Nat`; the similarity scores and geographic coordinates are `ℚ`
  (the source's float arithmetic on these values is exact at the scales
  the claims discuss).  A JS number that may be `NaN` is an `Option`.
* Thrown exceptions are `Except String`; a mutable unkeyed cache field is
  threaded explicitly.
-/

/-! ## Civil calendar arithmetic (the ECMAScript `Date` model) -/

/-- Days from the civil epoch 1970-01-01 to the first day of month `m` (1-12)
of year `y` (proleptic Gregorian, Howard Hinnant's `days_from_civil`). -/
def daysFromCivilMonthStart (y m : Int) : Int :=
  let y' := if m ≤ 2 then y - 1 else y
  let era := Int.fdiv y' 400
  let yoe := y' - era * 400
  let doy := (153 * (if 2 < m then m - 3 else m + 9) + 2) / 5
  let doe := yoe * 365 + yoe / 4 - yoe / 100 + doy
  era * 146097 + doe - 719468

/-- Civil date `(y, m, d)` of day number `z` (days since 1970-01-01),
Hinnant's `civil_from_days`. -/
def civilFromDays (z : Int) : Int × Int × Int :=
  let z' := z + 719468
  let era := Int.fdiv z' 146097
  let doe := z' - era * 146097
  let yoe := (doe - doe / 1460 + doe / 36524 - doe / 146096) / 365
  let y := yoe + era * 400
  let doy := doe - (365 * yoe + yoe / 4 - yoe / 100)
  let mp := (5 * doy + 2) / 153
  let d := doy - (153 * mp + 2) / 5 + 1
  let m := if mp < 10 then mp + 3 else mp - 9
  (if m ≤ 2 then y + 1 else y, m, d)

def msPerDay : Int := 86400000

/-- `Date.UTC(year, monthIndex, day, h, mi, s)` in milliseconds.  The month
index is 0-based and, like in ECMAScript, arbitrary (out-of-range months and
days are normalized). -/
def dateUTCms (year monthIndex day h mi s : Int) : Int :=
  let ym := year + Int.fdiv monthIndex 12
  let mn := Int.emod monthIndex 12
  (daysFromCivilMonthStart ym (mn + 1) + (day - 1)) * msPerDay
    + h * 3600000 + mi * 60000 + s * 1000

/-- ECMAScript `Day(t)`: the day number a timestamp falls in. -/
def dayNumberOfTs (ts : Int) : Int := Int.fdiv ts msPerDay

/-- ECMAScript `WeekDay(t)` = `getUTCDay`: 0 = Sunday .. 6 = Saturday. -/
def getUTCDayOfTs (ts : Int) : Int := Int.emod (dayNumberOfTs ts + 4) 7

/-- `getUTCFullYear` of a timestamp. -/
def getUTCFullYearOfTs (ts : Int) : Int := (civilFromDays (dayNumberOfTs ts)).1

/-- `getUTCMonth` of a timestamp (0-based, 0 = January). -/
def getUTCMonthOfTs (ts : Int) : Int := (civilFromDays (dayNumberOfTs ts)).2.1 - 1

/-- `getUTCDate` of a timestamp (day of month, 1-31). -/
def getUTCDateOfTs (ts : Int) : Int := (civilFromDays (dayNumberOfTs ts)).2.2

/-- `d.setUTCDate(day)`: replace the day-of-month (normalizing out-of-range
values), keeping the month, year and time-of-day of `ts`. -/
def setUTCDateTs (ts day : Int) : Int :=
  let dn := dayNumberOfTs ts
  let tod := ts - dn * msPerDay
  let c := civilFromDays dn
  (daysFromCivilMonthStart c.1 c.2.1 + (day - 1)) * msPerDay + tod

/-- The tuple of local calendar fields the library reads off a JS `Date` with
`getFullYear() .. getSeconds()` (month 0-based). -/
structure CalDateTime where
  year : Int
  month0 : Int
  day : Int
  hour : Int
  minute : Int
  second : Int
deriving DecidableEq, Repr

/-- `Date.UTC(d.getFullYear(), d.getMonth(), d.getDate(), d.getHours(),
d.getMinutes(), d.getSeconds())` — the instant the library rebuilds from a
date's calendar fields. -/
def instantOf (d : CalDateTime) : Int :=
  dateUTCms d.year d.month0 d.day d.hour d.minute d.second

/-! ## JS string helpers -/

/-- `String.prototype.split(sep)` (single-character separator, no limit). -/
def jsSplit (sep : Char) : List Char → List (List Char)
  | [] => [[]]
  | c :: rest =>
    if c = sep then [] :: jsSplit sep rest
    else
      match jsSplit sep rest with
      | [] => [[c]]
      | p :: ps => (c :: p) :: ps

/-- `str.replace(/[+-]/, '')`: drop the first `+` or `-`, if any. -/
def removeFirstSign : List Char → List Char
  | [] => []
  | c :: r => if c = '+' ∨ c = '-' then r else c :: removeFirstSign r

def isDecDigit (c : Char) : Bool := '0' ≤ c ∧ c ≤ '9'

def decDigitVal (c : Char) : Nat := c.toNat - '0'.toNat

def isHexDigit (c : Char) : Bool :=
  ('0' ≤ c ∧ c ≤ '9') ∨ ('a' ≤ c ∧ c ≤ 'f') ∨ ('A' ≤ c ∧ c ≤ 'F')

def hexDigitVal (c : Char) : Nat :=
  if '0' ≤ c ∧ c ≤ '9' then c.toNat - '0'.toNat
  else if 'a' ≤ c ∧ c ≤ 'f' then c.toNat - 'a'.toNat + 10
  else c.toNat - 'A'.toNat + 10

def decDigitsVal (ds : List Char) : Nat :=
  ds.foldl (fun a c => a * 10 + decDigitVal c) 0

def hexDigitsVal (ds : List Char) : Nat :=
  ds.foldl (fun a c => a * 16 + hexDigitVal c) 0

/-- `parseInt(s, 10)`; `none` is `NaN` (no leading digits). -/
def jsParseIntDec (s : List Char) : Option Int :=
  let t := s.dropWhile (fun c => c = ' ')
  match t with
  | '+' :: r =>
    let ds := r.takeWhile isDecDigit
    if ds = [] then none else some (decDigitsVal ds)
  | '-' :: r =>
    let ds := r.takeWhile isDecDigit
    if ds = [] then none else some (-(decDigitsVal ds : Int))
  | r =>
    let ds := r.takeWhile isDecDigit
    if ds = [] then none else some (decDigitsVal ds)

/-- `parseInt(s, 16)`; `none` is `NaN`. -/
def jsParseHex (s : List Char) : Option Int :=
  let t := s.dropWhile (fun c => c = ' ')
  let core : List Char → Option Int := fun r =>
    let r' := match r with
      | '0' :: 'x' :: rest => rest
      | '0' :: 'X' :: rest => rest
      | rest => rest
    let ds := r'.takeWhile isHexDigit
    if ds = [] then none else some (hexDigitsVal ds)
  match t with
  | '+' :: r => core r
  | '-' :: r => (core r).map (fun v => -v)
  | r => core r

/-- Decimal digit characters of `n` (the characters of JS `Number#toString`
for a nonnegative integer); fueled recursion on the value. -/
def natDecDigitsAux : Nat → Nat → List Char
  | 0, _ => []
  | fuel + 1, n =>
    if n < 10 then [Char.ofNat (n + '0'.toNat)]
    else natDecDigitsAux fuel (n / 10) ++ [Char.ofNat (n % 10 + '0'.toNat)]

def natDecDigits (n : Nat) : List Char := natDecDigitsAux (n + 1) n

/-- `str.padStart(len, '0')`. -/
def padZeroStart (len : Nat) (s : List Char) : List Char :=
  List.replicate (len - s.length) '0' ++ s

/-! ## Offset codec (`#offset2str`, `#str2offset`, `#normalizeOffset`) -/

/-- `#offset2str(tz_offset)`: sign-explicit zero-padded `±HH:MM`. -/
def offset2str (tz_offset : Int) : List Char :=
  let ttl_mins := tz_offset.natAbs
  let h := ttl_mins / 60
  let m := ttl_mins % 60
  let sign := if 0 ≤ tz_offset then '+' else '-'
  sign :: (padZeroStart 2 (natDecDigits h) ++ ':' :: padZeroStart 2 (natDecDigits m))

/-- `#str2offset(offset_str)` (the memo cache is keyed by the full input, so
the pure function is the observable behaviour); `none` is a `NaN` result. -/
def str2offset (offset_str : List Char) : Option Int :=
  let parts :=
    if ':' ∈ offset_str then jsSplit ':' offset_str
    else [offset_str, ['0', '0']]
  let m : Int := (((parts.get? 1).bind jsParseIntDec).getD 0)
  match jsParseIntDec (removeFirstSign (parts.headD [])) with
  | none => none
  | some h =>
    let ttl_offset := h * 60 + m
    some (if offset_str.head? = some '-' then -ttl_offset else ttl_offset)

/-- The regex `^[-+]?\d{1,2}(:\d{2})?$` (`#HH_MM_OFFSET_REGEX`). -/
def matchesHHMM (s : List Char) : Bool :=
  let t := match s with
    | '+' :: r => r
    | '-' :: r => r
    | r => r
  match t with
  | [d1] => isDecDigit d1
  | [d1, d2] => isDecDigit d1 && isDecDigit d2
  | [d1, ':', d2, d3] => isDecDigit d1 && isDecDigit d2 && isDecDigit d3
  | [d1, d2, ':', d3, d4] =>
    isDecDigit d1 && isDecDigit d2 && isDecDigit d3 && isDecDigit d4
  | _ => false

/-- The number branch of `#normalizeOffset` (never throws). -/
def normalizeOffsetNum (tz_offset : Int) : List Char :=
  let h := tz_offset.natAbs / 60
  let m := tz_offset.natAbs % 60
  let sign := if tz_offset < 0 then '-' else '+'
  sign :: (padZeroStart 2 (natDecDigits h) ++ ':' :: padZeroStart 2 (natDecDigits m))

/-- The string branch of `#normalizeOffset`: the regex
`^([+-])(\d{2}):?(\d{2})$` and the canonical `±HH:MM` rebuild; `none` models
the thrown `Invalid offset format` error. -/
def normalizeOffsetStr (s : List Char) : Option (List Char) :=
  match s with
  | [sg, d1, d2, ':', d3, d4] =>
    if (sg = '+' ∨ sg = '-') && isDecDigit d1 && isDecDigit d2
        && isDecDigit d3 && isDecDigit d4 then
      some [sg, d1, d2, ':', d3, d4]
    else none
  | [sg, d1, d2, d3, d4] =>
    if (sg = '+' ∨ sg = '-') && isDecDigit d1 && isDecDigit d2
        && isDecDigit d3 && isDecDigit d4 then
      some [sg, d1, d2, ':', d3, d4]
    else none
  | _ => none

/-! ## DST rule engine (`#nthWeekdayOfMonth`, `#isDstPeriod`,
`getTimeUntilNextDstChange`) -/

/-- `#nthWeekdayOfMonth(year, month, weekday, n)` (the memo cache is keyed by
all four arguments).  JS `%` on nonnegative operands is `Int.tmod`. -/
def nthWeekdayOfMonth (year month weekday n : Int) : Int :=
  let ts := dateUTCms year (month - 1) 1 0 0 0
  let day := getUTCDayOfTs ts
  let ts1 :=
    if n = 0 then
      let diff := Int.tmod (weekday - day + 7) 7
      setUTCDateTs ts (1 + diff)
    else
      let diff := weekday - day
      setUTCDateTs ts (1 + diff + (if diff < 0 then 7 else 0) + (n - 1) * 7)
  let ts2 :=
    if getUTCMonthOfTs ts1 ≠ month - 1 then
      setUTCDateTs ts1 (getUTCDateOfTs ts1 - 7)
    else ts1
  getUTCDateOfTs ts2

/-- `(rule >> shift) & (2^width - 1)` as the source computes it on the result
of `parseInt(dst_rule, 16)`: JS coerces the operand with `ToInt32` (wrap mod
`2^32`); `NaN` (`none`) coerces to `0`.  For `shift + width ≤ 16` the masked
bits agree with plain division and remainder on the wrapped value. -/
def hexField (r : Option Int) (shift width : Nat) : Int :=
  match r with
  | none => 0
  | some v => ((Int.emod v 4294967296).toNat / 2 ^ shift % 2 ^ width : Nat)

/-- `#isDstPeriod(date, dst_rule)` (the memo cache is keyed by
`(date.getTime(), dst_rule)`, so the pure function is the observable
behaviour). -/
def isDstPeriod (date : CalDateTime) (dst_rule : List Char) : Bool :=
  if dst_rule = ['0', '0'] then false
  else
    let year := date.year
    let rule := jsParseHex dst_rule
    let start_month := hexField rule 0 4
    let start_week := hexField rule 4 3
    let end_month := hexField rule 8 4
    let end_week := hexField rule 12 3
    let start_day := nthWeekdayOfMonth year start_month 0 start_week
    let end_day := nthWeekdayOfMonth year end_month 0 end_week
    let start := dateUTCms year (start_month - 1) start_day 2 0 0
    let finish := dateUTCms year (end_month - 1) end_day 2 0 0
    let utc_date := instantOf date
    if start ≤ finish then decide (start ≤ utc_date ∧ utc_date < finish)
    else decide (utc_date ≥ start ∨ utc_date < finish)

structure NextChange where
  next_change : Int
  time_until_change : Int
  change_to_dst : Bool
deriving DecidableEq, Repr

/-- `getTimeUntilNextDstChange()`, parameterized by the local `now` the method
reads with `this.getDate()` and by the resolved zone's `dst_rule`
(`none` models `dst_rule == undefined`: no zone record resolved). -/
def getTimeUntilNextDstChange (now : CalDateTime) (dst_rule : Option (List Char)) :
    Option NextChange :=
  match dst_rule with
  | none => none
  | some r =>
    if r = ['0', '0'] then none
    else
      let cur_year := now.year
      let next_year := cur_year + 1
      let rule := jsParseHex r
      let start_month := hexField rule 0 4
      let start_week := hexField rule 4 3
      let end_month := hexField rule 8 4
      let end_week := hexField rule 12 3
      let calculateDstDate := fun (year month week : Int) =>
        dateUTCms year (month - 1) (nthWeekdayOfMonth year month 0 week) 2 0 0
      let dst_start_cur := calculateDstDate cur_year start_month start_week
      let dst_end_cur := calculateDstDate cur_year end_month end_week
      let dst_start_next := calculateDstDate next_year start_month start_week
      let now_utc := instantOf now
      let nc :=
        if now_utc < dst_start_cur then (dst_start_cur, true)
        else if now_utc < dst_end_cur then (dst_end_cur, false)
        else (dst_start_next, true)
      some ⟨nc.1, nc.1 - now_utc, nc.2⟩

/-! ## Zone table model

Rows of the embedded `core_tz_db` are 10-element arrays; the structure fields
below name the indices `tz[0] .. tz[9]` the way the source reads them.  The
table itself ships outside the repository sources and is treated as an input
resource; functions take it as a parameter. -/

structure ZoneRow where
  code : List Char
  tz_id : List Char
  utc_sdt : List Char
  utc_dst : List Char
  tz_sdt : List Char
  tz_dst : List Char
  continent : List Char
  lat : ℚ
  lon : ℚ
  dst_rule : List Char
deriving DecidableEq, Inhabited, Repr

/-- The constructor hint `default_offset`: `null`, a number, or a string. -/
inductive Hint where
  | null : Hint
  | num (n : Int) : Hint
  | str (s : List Char) : Hint
deriving DecidableEq, Repr

/-- JS truthiness of the hint (`if (this.#default_offset)`). -/
def hintTruthy : Hint → Bool
  | .null => false
  | .num n => n ≠ 0
  | .str s => s ≠ []

/-- `String.prototype.toLowerCase` (the identifiers involved are ASCII). -/
def jsToLower (s : List Char) : List Char := s.map Char.toLower

/-- `#findTZbyAbbreviation`: match on `tz[0]`, `tz[4]` or `tz[5]`. -/
def findTZbyAbbreviation (db : List ZoneRow) (identifier : List Char) : Option ZoneRow :=
  db.find? (fun tz => tz.code = identifier ∨ tz.tz_sdt = identifier ∨ tz.tz_dst = identifier)

/-- `#initializeTimezoneData` (constructor, string hints only). -/
def initializeTimezoneData (db : List ZoneRow) (hint : Hint) : Option ZoneRow :=
  match hint with
  | .str s =>
    match db.find? (fun tz => tz.tz_id = s) with
    | some tz => some tz
    | none => findTZbyAbbreviation db s
  | _ => none

/-- The constructor strips a leading case-insensitive `utc` from string
hints (`this.#default_offset = this.#default_offset.slice(3)`). -/
def stripUtcHint : Hint → Hint
  | .str s => if ['u', 't', 'c'].isPrefixOf (jsToLower s) then .str (s.drop 3) else .str s
  | h => h

/-- The `#CONTINENTS` constant. -/
def CONTINENTS : List (List Char) :=
  ["Africa".data, "America".data, "Antarctica".data, "Asia".data, "Atlantic".data,
   "Australia".data, "Europe".data, "Indian".data, "Pacific".data]

/-! ## String similarity (`#calculateStringSimilarity`, `#findBestMatch`) -/

/-- Number of indices `i < maxLen` with `str1[i] === str2[i]` (comparison of
`Option Char`: an out-of-range access is `undefined` and compares unequal to
any character; `i < maxLen` means at least one side is in range). -/
def matchingChars (s1 s2 : List Char) (maxLen : Nat) : Nat :=
  ((List.range maxLen).filter (fun i => s1.get? i = s2.get? i)).length

/-- The position-weighted score `pos_score`: each matching index `i`
contributes `(max_len - i) / max_len`. -/
def posScoreOf (s1 s2 : List Char) (maxLen : Nat) : ℚ :=
  ((List.range maxLen).filter (fun i => s1.get? i = s2.get? i)).foldl
    (fun acc i => acc + ((maxLen : ℚ) - (i : ℚ)) / (maxLen : ℚ)) 0

/-- `char_ratio`: fraction of position-wise equal characters over the longer
length. -/
def charRatio (s1 s2 : List Char) : ℚ :=
  (matchingChars s1 s2 (max s1.length s2.length) : ℚ) / (max s1.length s2.length : ℚ)

/-- `len_ratio = min_len / max_len`. -/
def lenRatio (s1 s2 : List Char) : ℚ :=
  (min s1.length s2.length : ℚ) / (max s1.length s2.length : ℚ)

/-- `char_weight = 0.8 + 0.15 * (1 - len_ratio)`. -/
def charWeight (s1 s2 : List Char) : ℚ := 8/10 + 15/100 * (1 - lenRatio s1 s2)

/-- `pos_weight = 0.2 - 0.15 * (1 - len_ratio)`. -/
def posWeight (s1 s2 : List Char) : ℚ := 2/10 - 15/100 * (1 - lenRatio s1 s2)

/-- `#calculateStringSimilarity(str1, str2)` with exact rational arithmetic in
place of the source's float arithmetic. -/
def calculateStringSimilarity (str1 str2 : List Char) : ℚ :=
  let s1 := jsToLower str1
  let s2 := jsToLower str2
  if s1 = s2 then 1
  else
    charRatio s1 s2 * charWeight s1 s2
      + posScoreOf s1 s2 (max s1.length s2.length) * posWeight s1 s2

/-- `String.prototype.includes(needle)` on char lists. -/
def jsIncludes (needle : List Char) : List Char → Bool
  | [] => needle = []
  | c :: rest => needle.isPrefixOf (c :: rest) || jsIncludes needle rest

/-- The city token `tz[1].split('/')[1]`; `none` is `undefined`. -/
def cityTokenOf (tz : ZoneRow) : Option (List Char) := (jsSplit '/' tz.tz_id).get? 1

/-- Loop of `#findBestMatch`.  Calling the similarity scorer with an
`undefined` city (either side) throws a `TypeError` from `toLowerCase`. -/
def findBestMatchGo (city : Option (List Char)) :
    List ZoneRow → Option ZoneRow → ℚ → Except String (Option (ZoneRow × ℚ))
  | [], best, bestSim =>
    .ok (match best with
      | none => none
      | some tz => if 1/2 < bestSim then some (tz, bestSim) else none)
  | tz :: rest, best, bestSim =>
    match city, cityTokenOf tz with
    | some c, some tc =>
      let sim := calculateStringSimilarity c tc
      if bestSim < sim then findBestMatchGo city rest (some tz) sim
      else findBestMatchGo city rest best bestSim
    | _, _ => .error "TypeError: cannot read toLowerCase of undefined"

/-- `#findBestMatch(city, tzs)`; the threshold `#similarity_threshold` is 0.5. -/
def findBestMatch (city : Option (List Char)) (tzs : List ZoneRow) :
    Except String (Option (ZoneRow × ℚ)) :=
  findBestMatchGo city tzs none 0

/-! ## Offset-based resolution (`#isDstNow`, `#findTimeZoneByOffset`,
`#selectBestMatchingTimeZone`) -/

/-- `#isDstNow`: both branches test `tz.utc_dst === offset_str`, but the rows
of the table are arrays and have no `utc_dst` property, so the comparison is
`undefined === string` — false for every row, making the whole `some` false. -/
def isDstNow (db : List ZoneRow) (default_offset_mins : Option Int) (tz_offset : Int) : Bool :=
  if default_offset_mins.isSome then db.any (fun _ => false)
  else db.any (fun _ => false)

/-- Filter loop of `#findTimeZoneByOffset`; a malformed table offset string
raises from `#normalizeOffset`.  `offset_str = none` models a `NaN` search
offset, whose normalization `"+NaN:NaN"` matches no normalized row. -/
def findTimeZoneByOffsetGo (offset_str : Option (List Char)) (is_dst_now : Bool) :
    List ZoneRow → Except String (List ZoneRow)
  | [] => .ok []
  | tz :: rest =>
    match normalizeOffsetStr tz.utc_sdt, normalizeOffsetStr tz.utc_dst with
    | some std_offset, some dst_offset =>
      let keep := match offset_str with
        | some os => (if is_dst_now then dst_offset else std_offset) == os
        | none => false
      match findTimeZoneByOffsetGo offset_str is_dst_now rest with
      | .ok matched => .ok (if keep then tz :: matched else matched)
      | .error e => .error e
    | _, _ => .error "Invalid offset format"

/-- `#findTimeZoneByOffset(tz_offset, is_dst_now)` (memo cache keyed by both
arguments); `tz_offset = none` is a `NaN` offset. -/
def findTimeZoneByOffset (db : List ZoneRow) (tz_offset : Option Int) (is_dst_now : Bool) :
    Except String (List ZoneRow) :=
  findTimeZoneByOffsetGo (tz_offset.map normalizeOffsetNum) is_dst_now db

/-- The continent/city preference branch of `#selectBestMatchingTimeZone`
(taken when `this.#default_offset` is a truthy string). -/
def selectBestContinentBranch (default_offset_s : List Char)
    (filtered_tzs : List ZoneRow) : Except String (Option (List Char)) :=
  let parts := jsSplit '/' default_offset_s
  let continent := parts.headD []
  let city := parts.get? 1
  let continent_matches :=
    filtered_tzs.filter (fun tz => (continent ++ ['/']).isPrefixOf tz.tz_id)
  if continent_matches ≠ [] then
    match continent_matches.find? (fun tz => tz.tz_id = default_offset_s) with
    | some exact_match => .ok (some exact_match.tz_id)
    | none =>
      match findBestMatch city continent_matches with
      | .ok (some (tz, _)) => .ok (some tz.tz_id)
      | .ok none => .ok (some ((continent_matches.headD default).tz_id))
      | .error e => .error e
  else .ok (some ((filtered_tzs.headD default).tz_id))

/-- `#selectBestMatchingTimeZone(matching_tzs)`; reads `this.#default_offset`
for the continent/city preference. -/
def selectBestMatchingTimeZone (default_offset : Hint) (matching_tzs : List ZoneRow) :
    Except String (Option (List Char)) :=
  match matching_tzs with
  | [] => .ok none
  | [tz] => .ok (some tz.tz_id)
  | _ =>
    let non_deprecated := matching_tzs.filter (fun tz => !(jsIncludes ['E', 't', 'c', '/'] tz.tz_id))
    let filtered_tzs := if non_deprecated ≠ [] then non_deprecated else matching_tzs
    match default_offset with
    | .str s =>
      if s ≠ [] then selectBestContinentBranch s filtered_tzs
      else .ok (some ((filtered_tzs.headD default).tz_id))
    | _ => .ok (some ((filtered_tzs.headD default).tz_id))

/-! ## `#determineOffset` and `#guessTimeZoneFromPartialId` -/

/-- `#guessTimeZoneFromPartialId(continent, city)`; the final `throw` is the
`Unable to determine offset` error. -/
def guessTimeZoneFromPartialId (db : List ZoneRow) (continent city : List Char) :
    Except String (Option Int) :=
  if continent ∉ CONTINENTS then
    let possible_tzs := db.filter (fun tz =>
      match (jsSplit '/' tz.tz_id).get? 1 with
      | some tz_city => tz_city ≠ [] && jsIncludes (jsToLower city) (jsToLower tz_city)
      | none => false)
    match possible_tzs with
    | p :: _ => .ok (str2offset p.utc_sdt)
    | [] => .error "Unable to determine offset for timezone"
  else
    let possible_tzs := db.filter (fun tz =>
      (jsSplit '/' tz.tz_id).headD [] = continent &&
      (match (jsSplit '/' tz.tz_id).get? 1 with
       | some tz_city => tz_city ≠ [] && jsIncludes (jsToLower city) (jsToLower tz_city)
       | none => false))
    match possible_tzs with
    | p :: _ => .ok (str2offset p.utc_sdt)
    | [] =>
      match db.find? (fun tz => (continent ++ ['/']).isPrefixOf tz.tz_id) with
      | some fallback => .ok (str2offset fallback.utc_sdt)
      | none => .error "Unable to determine offset for timezone"

/-- `#determineOffset(timezone)`; the argument reaching it from `getLocation`
is always a string, so only the slash/emptiness format checks can throw
directly. -/
def determineOffset (db : List ZoneRow) (timezone : List Char) : Except String (Option Int) :=
  match timezone.findIdx? (fun c => c = '/') with
  | none => .error "Invalid timezone format"
  | some first_slash_index =>
    let continent := timezone.take first_slash_index
    let city := timezone.drop (first_slash_index + 1)
    if continent = [] ∨ city = [] then .error "Invalid timezone format"
    else
      match db.filter (fun tz => tz.tz_id = timezone) with
      | m :: _ => .ok (str2offset m.utc_sdt)
      | [] => guessTimeZoneFromPartialId db continent city

/-! ## `getLocation`

Modelled for a first call on a fresh instance: `#location_cache` and
`#default_offset_mins` are `null` (`#initializeDefaultOffset` is dead code —
the lazy-getter `Object.defineProperty` in the constructor defines an
ordinary string-named property and never intercepts the private field), so
`#calculateTZ` yields the host offset.  The local nullable-number
`#default_offset_mins` is threaded as `Option (Option Int)`:
`none` = `null`, `some none` = `NaN`, `some (some v)` = a number. -/

/-- JS falsiness of the `location` variable (`null` or the empty string). -/
def locFalsy (l : Option (List Char)) : Bool := l = none ∨ l = some []

/-- The `if (this.#default_offset)` block of `getLocation` up to (and not
including) the trailing offset lookup: yields the `location` and local
`#default_offset_mins` values it leaves behind. -/
def getLocationStep0 (db : List ZoneRow) (hint : Hint) :
    Except String (Option (List Char) × Option (Option Int)) :=
  if hintTruthy hint then
    match hint with
    | .num n => .ok (none, some (some (n * 60)))
    | .str s =>
      if matchesHHMM s then .ok (none, some (str2offset s))
      else
        let continent := (jsSplit '/' s).headD []
        let continent_matches :=
          db.filter (fun tz => (continent ++ ['/']).isPrefixOf tz.tz_id)
        if continent_matches ≠ [] then
          match selectBestMatchingTimeZone hint continent_matches with
          | .ok l => .ok (l, none)
          | .error e => .error e
        else .ok (some "Unknown".data, none)
    | .null => .ok (none, none)
  else .ok (none, none)

/-- `if (!location && this.#default_offset_mins !== null)`: offset lookup on
the hint-derived minutes. -/
def getLocationStep1 (db : List ZoneRow) (hint : Hint)
    (location0 : Option (List Char)) (dmins0 : Option (Option Int)) :
    Except String (Option (List Char)) :=
  match dmins0 with
  | some dm =>
    if locFalsy location0 then
      match findTimeZoneByOffset db dm false with
      | .ok matching_tzs => selectBestMatchingTimeZone hint matching_tzs
      | .error e => .error e
    else .ok location0
  | none => .ok location0

/-- `if (!location)`: offset lookup on the current (host) offset. -/
def getLocationStep2 (db : List ZoneRow) (hint : Hint) (current_tz_offset : Int)
    (is_dst_now : Bool) (location1 : Option (List Char)) :
    Except String (Option (List Char)) :=
  if locFalsy location1 then
    match findTimeZoneByOffset db (some current_tz_offset) is_dst_now with
    | .ok matching_tzs => selectBestMatchingTimeZone hint matching_tzs
    | .error e => .error e
  else .ok location1

/-- `if (location === null)`: the raw-string offset fallback filter.  The
`country_code` branch reads a property the instance does not have (falsy), so
it is dead. -/
def getLocationStep3 (db : List ZoneRow) (hint : Hint) (offset_str : List Char)
    (location2 : Option (List Char)) : Except String (Option (List Char)) :=
  if location2 = none then
    let fallback_timezones :=
      db.filter (fun tz => tz.utc_sdt = offset_str ∨ tz.utc_dst = offset_str)
    if fallback_timezones ≠ [] then
      selectBestMatchingTimeZone hint fallback_timezones
    else .ok location2
  else .ok location2

/-- The tail of `getLocation`: the `Unknown` default and the
`#determineOffset` side computation (whose thrown errors escape). -/
def getLocationFinish (db : List ZoneRow) (location3 : Option (List Char)) :
    Except String (List Char) :=
  let location4 := if location3 = none then "Unknown".data else location3.getD []
  if location4 ≠ "Unknown".data then
    match determineOffset db location4 with
    | .ok _ => .ok location4
    | .error e => .error e
  else .ok location4

def getLocation (db : List ZoneRow) (hint0 : Hint) (host_offset : Int) :
    Except String (List Char) :=
  let tz_data := initializeTimezoneData db hint0
  let hint := stripUtcHint hint0
  match tz_data with
  | some d => .ok d.tz_id
  | none =>
    let current_tz_offset : Int := host_offset
    let offset_str := offset2str current_tz_offset
    let is_dst_now := isDstNow db none current_tz_offset
    match getLocationStep0 db hint with
    | .error e => .error e
    | .ok (location0, dmins0) =>
      match getLocationStep1 db hint location0 dmins0 with
      | .error e => .error e
      | .ok location1 =>
        match getLocationStep2 db hint current_tz_offset is_dst_now location1 with
        | .error e => .error e
        | .ok location2 =>
          match getLocationStep3 db hint offset_str location2 with
          | .error e => .error e
          | .ok location3 => getLocationFinish db location3

/-! ## `getDaylightStatus`, `clearCache`, and the instance state

`getDaylightStatus` reads and writes the unkeyed `#dst_status_cache`;
`getLocation` reads and writes `#location_cache` and `#default_offset_mins`.
`clearCache` nulls the two caches but leaves `#default_offset_mins` in
place. -/

/-- `getDaylightStatus(location)` with the instance's `#dst_status_cache`
threaded explicitly (the only mutable state it touches).  Early returns for
an unknown location or the `"00"` rule bypass the cache write. -/
def getDaylightStatusS (tz_data : Option ZoneRow) (db : List ZoneRow) (now : CalDateTime)
    (dst_status_cache : Option Bool) (location : List Char) : Bool × Option Bool :=
  match tz_data with
  | some d => (isDstPeriod now d.dst_rule, dst_status_cache)
  | none =>
    match dst_status_cache with
    | some v => (v, dst_status_cache)
    | none =>
      match db.find? (fun tz => tz.tz_id = location) with
      | none => (false, none)
      | some tz_info =>
        if tz_info.dst_rule = ['0', '0'] then (false, none)
        else
          let is_dst := isDstPeriod now tz_info.dst_rule
          (is_dst, some is_dst)

/-- The per-instance facade state that `getLocation` and `getDaylightStatus`
read and write across calls: `#location_cache`, `#dst_status_cache`, and the
nullable number `#default_offset_mins` (`none` = `null`, `some none` = `NaN`,
`some (some v)` = a number).  The keyed memo maps (`#dst_cache`,
`#offset_cache`, `#tz_info_cache`, `#nth_week_cache`) cache pure functions of
their full keys and are modelled by the pure functions themselves. -/
structure FacadeState where
  location_cache : Option (List Char)
  dst_status_cache : Option Bool
  default_offset_mins : Option (Option Int)
deriving DecidableEq, Repr

/-- The state of a freshly constructed instance (the constructor's
`Object.defineProperty` lazy initializer is dead code, so
`#default_offset_mins` starts out `null`). -/
def initialFacadeState : FacadeState := ⟨none, none, none⟩

/-- `clearCache()`: sets `#location_cache = null` and `#dst_status_cache =
null` and empties the keyed memo maps (invisible here, being caches of pure
functions); it does NOT reset `#default_offset_mins`. -/
def clearCacheS (st : FacadeState) : FacadeState :=
  { st with location_cache := none, dst_status_cache := none }

/-- `#calculateTZ`: the stored `#default_offset_mins` when it is not `null`
(including a stored `NaN`), otherwise the host's `-getTimezoneOffset()`. -/
def calculateTZ (default_offset_mins : Option (Option Int)) (host_offset : Int) :
    Option Int :=
  match default_offset_mins with
  | some v => v
  | none => some host_offset

/-- `#offset2str` applied to a possibly-`NaN` number: on `NaN`,
`Math.abs`/`Math.floor`/`%` give `NaN`, `NaN >= 0` is false so the sign is
`-`, and `String(NaN).padStart(2, '0')` is `NaN`, yielding the literal
`-NaN:NaN`. -/
def offset2strN : Option Int → List Char
  | some v => offset2str v
  | none => "-NaN:NaN".data

/-- `getLocationStep2` generalized to the possibly-`NaN` current offset a
stored `#default_offset_mins` can supply on a cache-miss recomputation. -/
def getLocationStep2N (db : List ZoneRow) (hint : Hint) (current_tz_offset : Option Int)
    (is_dst_now : Bool) (location1 : Option (List Char)) :
    Except String (Option (List Char)) :=
  if locFalsy location1 then
    match findTimeZoneByOffset db current_tz_offset is_dst_now with
    | .ok matching_tzs => selectBestMatchingTimeZone hint matching_tzs
    | .error e => .error e
  else .ok location1

/-- The tail of `getLocation` with the `location !== 'Unknown'` branch's
`#default_offset_mins = #determineOffset(location)` assignment made
explicit: yields the location together with the field's new value. -/
def getLocationFinishS (db : List ZoneRow) (location3 : Option (List Char))
    (dm : Option (Option Int)) : Except String (List Char × Option (Option Int)) :=
  let location4 := if location3 = none then "Unknown".data else location3.getD []
  if location4 ≠ "Unknown".data then
    match determineOffset db location4 with
    | .ok v => .ok (location4, some v)
    | .error e => .error e
  else .ok (location4, dm)

/-- The cache-miss body of `getLocation` as a function of the stored
`#default_offset_mins`, returning the location and the field's final value.
`current_tz_offset` comes from `#calculateTZ`; the hint block (steps 0 and 1)
runs only under a truthy `#default_offset`, and when step 0 does not assign
`#default_offset_mins` the field keeps its stored value, which step 1's
`!== null` guard then reads.  The second argument fed to the
constantly-false `#isDstNow` only exercises its dead null test. -/
def getLocationCompute (db : List ZoneRow) (hint : Hint) (host_offset : Int)
    (dm0 : Option (Option Int)) : Except String (List Char × Option (Option Int)) :=
  let current_tz_offset := calculateTZ dm0 host_offset
  let offset_str := offset2strN current_tz_offset
  let is_dst_now := isDstNow db (dm0.map (fun v => v.getD 0)) (current_tz_offset.getD 0)
  match getLocationStep0 db hint with
  | .error e => .error e
  | .ok (location0, dmA) =>
    let dm1 := match dmA with
      | some v => some v
      | none => dm0
    match (if hintTruthy hint then getLocationStep1 db hint location0 dm1
           else .ok location0) with
    | .error e => .error e
    | .ok location1 =>
      match getLocationStep2N db hint current_tz_offset is_dst_now location1 with
      | .error e => .error e
      | .ok location2 =>
        match getLocationStep3 db hint offset_str location2 with
        | .error e => .error e
        | .ok location3 => getLocationFinishS db location3 dm1

/-- The stateful `getLocation`: a resolved `#tz_data` short-circuits; a
cached location is returned as-is; otherwise the computed location is
returned and stored in `#location_cache` alongside the updated
`#default_offset_mins` (a thrown error leaves no observable state). -/
def getLocationS (db : List ZoneRow) (hint0 : Hint) (host_offset : Int)
    (st : FacadeState) : Except String (List Char × FacadeState) :=
  match initializeTimezoneData db hint0 with
  | some d => .ok (d.tz_id, st)
  | none =>
    match st.location_cache with
    | some loc => .ok (loc, st)
    | none =>
      match getLocationCompute db (stripUtcHint hint0) host_offset st.default_offset_mins with
      | .ok (loc, dm) =>
        .ok (loc, { st with location_cache := some loc, default_offset_mins := dm })
      | .error e => .error e

/-! ## `getApproxLocation` (geo approximator) -/

structure SpatialEntry where
  index : Nat
  slat : ℚ
  slon : ℚ
deriving DecidableEq, Repr

/-- `#spatial_index` build: `tz[7] * 10000 + 0.5` (the comment says
`inline round`, but no rounding is applied — the half is just added). -/
def buildSpatialIndexGo (k : Nat) : List ZoneRow → List SpatialEntry
  | [] => []
  | tz :: rest =>
    ⟨k, tz.lat * 10000 + 1/2, tz.lon * 10000 + 1/2⟩ :: buildSpatialIndexGo (k + 1) rest

def buildSpatialIndex (db : List ZoneRow) : List SpatialEntry := buildSpatialIndexGo 0 db

/-- `a > b ? a - b : b - a` (the inline absolute difference). -/
def jsAbsDiff (a b : ℚ) : ℚ := if b < a then a - b else b - a

/-- The scan loop of `getApproxLocation`: strict-improvement minimum starting
from `Number.MAX_SAFE_INTEGER`, keeping the first minimum. -/
def approxScanGo (lat lon : ℚ) : List SpatialEntry → Nat → ℚ → Nat
  | [], nearest_index, _ => nearest_index
  | e :: rest, nearest_index, min_dist =>
    let dist := jsAbsDiff lat e.slat + jsAbsDiff lon e.slon
    if dist < min_dist then approxScanGo lat lon rest e.index dist
    else approxScanGo lat lon rest nearest_index min_dist

/-- `getApproxLocation(latitude, longitude)`; `cache` is the instance's
`#spatial_index` field (`none` = not yet built).  The result is
`db[nearest_index][1]`; `none` models the out-of-bounds access on an empty
table. -/
def getApproxLocation (db : List ZoneRow) (cache : Option (List SpatialEntry))
    (latitude longitude : ℚ) : Option (List Char) :=
  let spatial_index := match cache with
    | some idx => idx
    | none => buildSpatialIndex db
  let lat := latitude * 10000
  let lon := longitude * 10000
  let nearest_index := approxScanGo lat lon spatial_index 0 9007199254740991
  (db.get? nearest_index).map (fun tz => tz.tz_id)

/-! ## Reference notions used to state the claims -/

/-- Instant at 02:00 UTC on the computed nth-Sunday date of `year` for a
rule's `(month, week)` pair — the shape both DST-engine claims describe. -/
def dstTransitionInstant (year month week : Int) : Int :=
  dateUTCms year (month - 1) (nthWeekdayOfMonth year month 0 week) 2 0 0

/-- Day of week (0 = Sunday) of a proleptic Gregorian civil date. -/
def dayOfWeekOn (y m d : Int) : Int :=
  Int.emod (daysFromCivilMonthStart y m + (d - 1) + 4) 7

/-- Number of days in month `m` (1-12) of year `y`. -/
def daysInMonth (y m : Int) : Int :=
  (if m = 12 then daysFromCivilMonthStart (y + 1) 1 else daysFromCivilMonthStart y (m + 1))
    - daysFromCivilMonthStart y m

/-- Day-of-month of the first occurrence of weekday `w` in month `m` of
year `y`. -/
def firstWeekdayDayOfMonth (y m w : Int) : Int :=
  1 + Int.emod (w - dayOfWeekOn y m 1) 7

/-- Day-of-month of the LAST occurrence of weekday `w` in month `m` of year
`y` — the notion the spec attaches to `n = 0`. -/
def lastWeekdayDayOfMonth (y m w : Int) : Int :=
  let f := firstWeekdayDayOfMonth y m w
  f + 7 * ((daysInMonth y m - f) / 7)

/-- The claim's geo distance: Manhattan distance between the ×10000-scaled
input and the ×10000-scaled entry coordinates. -/
def claimManhattan (lat lon : ℚ) (tz : ZoneRow) : ℚ :=
  |lat * 10000 - tz.lat * 10000| + |lon * 10000 - tz.lon * 10000|

/-- The distance the shipped scan actually minimizes: the entry coordinates
are scaled ×10000 and shifted by the un-floored half. -/
def codeGeoDist (lat lon : ℚ) (tz : ZoneRow) : ℚ :=
  jsAbsDiff (lat * 10000) (tz.lat * 10000 + 1/2) + jsAbsDiff (lon * 10000) (tz.lon * 10000 + 1/2)

/-! ## Decidable equality for `Except` results -/

instance {ε α : Type} [DecidableEq ε] [DecidableEq α] : DecidableEq (Except ε α) := fun a b =>
  match a, b with
  | .error e, .error f =>
    if h : e = f then .isTrue (by rw [h]) else
      .isFalse (fun hc => h (by cases hc; rfl))
  | .error _, .ok _ => .isFalse (fun hc => Except.noConfusion hc)
  | .ok _, .error _ => .isFalse (fun hc => Except.noConfusion hc)
  | .ok x, .ok y =>
    if h : x = y then .isTrue (by rw [h]) else
      .isFalse (fun hc => h (by cases hc; rfl))

/-! ## Further reference notions used to state the claims -/

/-- The similarity the fuzzy scan computes for a candidate row (every row the
scan can process has a defined city token). -/
def simToCityOf (city : List Char) (tz : ZoneRow) : ℚ :=
  calculateStringSimilarity city ((cityTokenOf tz).getD [])

/-- The scan distance of a row, as computed against its spatial-index entry. -/
def scanDistRow (slat slon : ℚ) (tz : ZoneRow) : ℚ :=
  jsAbsDiff slat (tz.lat * 10000 + 1/2) + jsAbsDiff slon (tz.lon * 10000 + 1/2)

/-- The `zone_id` shape `#determineOffset` requires: a slash with nonempty
continent and city parts. -/
def wfZoneId (s : List Char) : Bool :=
  match s.findIdx? (fun c => c = '/') with
  | some i => s.take i ≠ [] && s.drop (i + 1) ≠ []
  | none => false

/-- Table invariant (the spec's data-model section): IANA-style ids and
`±HH:MM` offset strings. -/
def WfDb (db : List ZoneRow) : Prop :=
  ∀ tz ∈ db, wfZoneId tz.tz_id = true ∧
    (normalizeOffsetStr tz.utc_sdt).isSome = true ∧
    (normalizeOffsetStr tz.utc_dst).isSome = true

/-- Hints that avoid the bare-continent `TypeError`: after UTC stripping, a
string hint either contains a slash or does not `/`-extend to a prefix of any
table id. -/
def SafeHint (db : List ZoneRow) (hint : Hint) : Prop :=
  match stripUtcHint hint with
  | .str s => ('/' ∈ s) ∨ (∀ tz ∈ db, ¬ (s ++ ['/']).isPrefixOf tz.tz_id = true)
  | _ => True

/-- The invariant the `location` variable satisfies through `getLocation`:
`null`, the sentinel, or a table id. -/
def LocInv (db : List ZoneRow) (loc : Option (List Char)) : Prop :=
  loc = none ∨ loc = some "Unknown".data ∨ ∃ tz ∈ db, loc = some tz.tz_id

/-! ## Concrete table rows used in the closed theorems.  The table is an
external input resource; these rows carry the values the source documents
(the `B13` rule worked example for America/New_York, the `"00"` sentinel for
a zone without DST). -/

def nyRow : ZoneRow :=
  ⟨"US".data, "America/New_York".data, "-05:00".data, "-04:00".data,
   "EST".data, "EDT".data, "America".data, 407128/10000, -740060/10000, "B13".data⟩

def tokyoRow : ZoneRow :=
  ⟨"JP".data, "Asia/Tokyo".data, "+09:00".data, "+09:00".data,
   "JST".data, "JST".data, "Asia".data, 356762/10000, 1396503/10000, "00".data⟩

def asuncionRow : ZoneRow :=
  ⟨"PY".data, "America/Asuncion".data, "-04:00".data, "-03:00".data,
   "-04".data, "-03".data, "America".data, -252516/10000, -576167/10000, "41A3".data⟩

def londonRow : ZoneRow :=
  ⟨"GB".data, "Europe/London".data, "+00:00".data, "+01:00".data,
   "GMT".data, "BST".data, "Europe".data, 515074/10000, -1278/10000, "A35".data⟩

def parisRow : ZoneRow :=
  ⟨"FR".data, "Europe/Paris".data, "+01:00".data, "+02:00".data,
   "CET".data, "CEST".data, "Europe".data, 488566/10000, 23522/10000, "A35".data⟩

def warsawRow : ZoneRow :=
  ⟨"PL".data, "Europe/Warsaw".data, "+01:00".data, "+02:00".data,
   "CET".data, "CEST".data, "Europe".data, 522297/10000, 210122/10000, "A35".data⟩

def geoZ1 : ZoneRow :=
  ⟨"A1".data, "Z1".data, "+00:00".data, "+00:00".data, "AA".data, "AA".data,
   "Europe".data, 0, 0, "00".data⟩

def geoZ2 : ZoneRow :=
  ⟨"A2".data, "Z2".data, "+00:00".data, "+00:00".data, "BB".data, "BB".data,
   "Europe".data, 1/10000, 0, "00".data⟩

def geoDb : List ZoneRow := [geoZ1, geoZ2]

def dbNYTokyo : List ZoneRow := [nyRow, tokyoRow]

/-- A zone whose standard offset -09:30 matches no +03:00 host but whose raw
dst string +03:00 the step-3 fallback filter of `getLocation` matches. -/
def rowA : ZoneRow :=
  ⟨"AA".data, "Test/Azone".data, "-09:30".data, "+03:00".data,
   "TA".data, "TA".data, "Test".data, 0, 0, "00".data⟩

/-- A second zone sharing rowA's standard offset -09:30 and listed before it,
so an offset lookup at -570 minutes selects it first. -/
def rowB : ZoneRow :=
  ⟨"BB".data, "Test/Bzone".data, "-09:30".data, "-08:30".data,
   "TB".data, "TB".data, "Test".data, 0, 0, "00".data⟩

def offsetFallbackDb : List ZoneRow := [rowB, rowA]

/-- 2024-07-01T12:00:00, a DST-active instant for the `B13` rule. -/
def julyNoon : CalDateTime := ⟨2024, 6, 1, 12, 0, 0⟩

/-- 2024-01-15T12:00:00, a southern-hemisphere DST-active winter instant. -/
def janNoon : CalDateTime := ⟨2024, 0, 15, 12, 0, 0⟩

/-! ## Helper lemmas -/

lemma hexField_of_lt (r : Nat) (h16 : r < 65536) (sh w : Nat) :
    hexField (some (r : Int)) sh w = ((r / 2 ^ sh % 2 ^ w : Nat) : Int) := by
  have h1 : (0 : Int) ≤ (r : Int) := Int.natCast_nonneg r
  have h2 : (r : Int) < 4294967296 := by
    have : (r : Int) < (65536 : Nat) := by exact_mod_cast h16
    omega
  have h3 : Int.emod (r : Int) 4294967296 = (r : Int) := Int.emod_eq_of_lt h1 h2
  simp [hexField, h3]

lemma pad2_parse : ∀ n : Nat, n < 100 →
    jsParseIntDec (padZeroStart 2 (natDecDigits n)) = some (n : Int) := by decide

lemma pad2_no_colon : ∀ n : Nat, n < 100 → ':' ∉ padZeroStart 2 (natDecDigits n) := by decide

lemma jsSplit_no_sep (sep : Char) : ∀ (b : List Char), sep ∉ b → jsSplit sep b = [b] := by
  intro b
  induction b with
  | nil => intro _; rfl
  | cons c rest ih =>
    intro h
    have hc : ¬ c = sep := fun hc => h (hc ▸ List.mem_cons_self c rest)
    have hrest : sep ∉ rest := fun hr => h (List.mem_cons_of_mem c hr)
    simp only [jsSplit, if_neg hc, ih hrest]

lemma jsSplit_append (sep : Char) : ∀ (a b : List Char), sep ∉ a →
    jsSplit sep (a ++ sep :: b) = a :: jsSplit sep b := by
  intro a
  induction a with
  | nil =>
    intro b _
    simp [jsSplit]
  | cons c rest ih =>
    intro b h
    have hc : ¬ c = sep := fun hc => h (hc ▸ List.mem_cons_self c rest)
    have hrest : sep ∉ rest := fun hr => h (List.mem_cons_of_mem c hr)
    rw [List.cons_append]
    simp only [jsSplit, if_neg hc]
    rw [ih b hrest]

lemma str2offset_signed (sign : Char) (hsg : sign = '+' ∨ sign = '-') (h mm : Nat)
    (hh : h < 100) (hm : mm < 100) :
    str2offset (sign ::
        (padZeroStart 2 (natDecDigits h) ++ ':' :: padZeroStart 2 (natDecDigits mm)))
      = some (if sign = '-' then -((h : Int) * 60 + (mm : Int))
              else (h : Int) * 60 + (mm : Int)) := by
  have hnc_h : ':' ∉ padZeroStart 2 (natDecDigits h) := pad2_no_colon h hh
  have hnc_m : ':' ∉ padZeroStart 2 (natDecDigits mm) := pad2_no_colon mm hm
  have hsgne : ¬ sign = ':' := by rcases hsg with h | h <;> simp [h]
  have hmem : ':' ∈ sign ::
      (padZeroStart 2 (natDecDigits h) ++ ':' :: padZeroStart 2 (natDecDigits mm)) :=
    List.mem_cons_of_mem _ (List.mem_append_right _ (List.mem_cons_self _ _))
  have hna : ':' ∉ sign :: padZeroStart 2 (natDecDigits h) := by
    intro hcon
    rcases List.mem_cons.mp hcon with hx | hx
    · exact hsgne hx.symm
    · exact hnc_h hx
  have hsplit : jsSplit ':' (sign ::
      (padZeroStart 2 (natDecDigits h) ++ ':' :: padZeroStart 2 (natDecDigits mm)))
      = (sign :: padZeroStart 2 (natDecDigits h)) :: [padZeroStart 2 (natDecDigits mm)] := by
    have hst := jsSplit_append ':' (sign :: padZeroStart 2 (natDecDigits h))
      (padZeroStart 2 (natDecDigits mm)) hna
    rw [List.cons_append] at hst
    rw [hst, jsSplit_no_sep ':' _ hnc_m]
  have hrf : removeFirstSign (sign :: padZeroStart 2 (natDecDigits h))
      = padZeroStart 2 (natDecDigits h) := by
    rcases hsg with hx | hx <;> simp [removeFirstSign, hx]
  simp only [str2offset, if_pos hmem, hsplit, List.headD_cons, List.get?_cons_succ,
    List.get?_cons_zero, Option.some_bind]
  rw [hrf, pad2_parse h hh, pad2_parse mm hm]
  simp only [Option.getD_some, List.head?_cons, Option.some.injEq]

lemma findBestMatchGo_full (city : List Char) :
    ∀ (l : List ZoneRow) (best : Option ZoneRow) (bs : ℚ),
      (∀ tz ∈ l, (cityTokenOf tz).isSome) →
      ∃ r, findBestMatchGo (some city) l best bs = .ok r ∧
        (((∀ tz ∈ l, simToCityOf city tz ≤ bs) ∧
          r = (match best with
            | none => none
            | some b => if 1/2 < bs then some (b, bs) else none)) ∨
         (∃ tz, tz ∈ l ∧ bs < simToCityOf city tz ∧
           (∀ tz2 ∈ l, simToCityOf city tz2 ≤ simToCityOf city tz) ∧
           r = if 1/2 < simToCityOf city tz then some (tz, simToCityOf city tz) else none)) := by
  intro l
  induction l with
  | nil =>
    intro best bs _
    refine ⟨_, rfl, Or.inl ⟨by simp, rfl⟩⟩
  | cons tz rest ih =>
    intro best bs hwf
    obtain ⟨tc, htc⟩ := Option.isSome_iff_exists.mp (hwf tz (List.mem_cons_self tz rest))
    have hsim : calculateStringSimilarity city tc = simToCityOf city tz := by
      rw [simToCityOf, htc]; rfl
    have hwfr : ∀ tz2 ∈ rest, (cityTokenOf tz2).isSome :=
      fun tz2 h2 => hwf tz2 (List.mem_cons_of_mem tz h2)
    by_cases hlt : bs < simToCityOf city tz
    · obtain ⟨r, hr, hcases⟩ := ih (some tz) (simToCityOf city tz) hwfr
      refine ⟨r, ?_, ?_⟩
      · simp only [findBestMatchGo, htc, hsim, if_pos hlt]
        exact hr
      · rcases hcases with ⟨hall, hre⟩ | ⟨tz3, hmem, hlt3, hmax, hre⟩
        · refine Or.inr ⟨tz, List.mem_cons_self tz rest, hlt, ?_, hre⟩
          intro tz2 h2
          rcases List.mem_cons.mp h2 with h2 | h2
          · subst h2; exact le_refl _
          · exact hall tz2 h2
        · refine Or.inr ⟨tz3, List.mem_cons_of_mem tz hmem, lt_trans hlt hlt3, ?_, hre⟩
          intro tz2 h2
          rcases List.mem_cons.mp h2 with h2 | h2
          · subst h2; exact le_of_lt hlt3
          · exact hmax tz2 h2
    · obtain ⟨r, hr, hcases⟩ := ih best bs hwfr
      refine ⟨r, ?_, ?_⟩
      · simp only [findBestMatchGo, htc, hsim, if_neg hlt]
        exact hr
      · rcases hcases with ⟨hall, hre⟩ | ⟨tz3, hmem, hlt3, hmax, hre⟩
        · refine Or.inl ⟨?_, hre⟩
          intro tz2 h2
          rcases List.mem_cons.mp h2 with h2 | h2
          · subst h2; exact not_lt.mp hlt
          · exact hall tz2 h2
        · refine Or.inr ⟨tz3, List.mem_cons_of_mem tz hmem, hlt3, ?_, hre⟩
          intro tz2 h2
          rcases List.mem_cons.mp h2 with h2 | h2
          · subst h2; exact le_trans (not_lt.mp hlt) (le_of_lt hlt3)
          · exact hmax tz2 h2

lemma lenRatio_bounds (s1 s2 : List Char) (hne : s1 ≠ s2) :
    0 ≤ lenRatio s1 s2 ∧ lenRatio s1 s2 ≤ 1 := by
  have hmaxpos : 0 < (max s1.length s2.length : ℚ) := by
    have : max s1.length s2.length ≠ 0 := by
      intro h0
      have h1 : s1.length = 0 := by omega
      have h2 : s2.length = 0 := by omega
      exact hne (by rw [List.length_eq_zero.mp h1, List.length_eq_zero.mp h2])
    exact_mod_cast Nat.pos_of_ne_zero this
  constructor
  · exact div_nonneg (by positivity) (le_of_lt hmaxpos)
  · rw [lenRatio, div_le_one hmaxpos]
    exact_mod_cast min_le_max

lemma scanDistRow_eq_codeGeoDist (lat lon : ℚ) (tz : ZoneRow) :
    scanDistRow (lat * 10000) (lon * 10000) tz = codeGeoDist lat lon tz := rfl

lemma approxScanGo_no_improve (slat slon : ℚ) :
    ∀ (l : List ZoneRow) (k best : Nat) (md : ℚ),
      (∀ tz ∈ l, md ≤ scanDistRow slat slon tz) →
      approxScanGo slat slon (buildSpatialIndexGo k l) best md = best := by
  intro l
  induction l with
  | nil => intro k best md _; rfl
  | cons tz rest ih =>
    intro k best md hall
    have hd : ¬ (jsAbsDiff slat (tz.lat * 10000 + 1/2) + jsAbsDiff slon (tz.lon * 10000 + 1/2)
        < md) := not_lt.mpr (hall tz (List.mem_cons_self tz rest))
    simp only [buildSpatialIndexGo, approxScanGo]
    rw [if_neg hd]
    exact ih (k + 1) best md (fun tz2 h2 => hall tz2 (List.mem_cons_of_mem tz h2))

lemma approxScanGo_improve (slat slon : ℚ) :
    ∀ (l : List ZoneRow) (k best : Nat) (md : ℚ),
      (∃ tz ∈ l, scanDistRow slat slon tz < md) →
      ∃ i, ∃ hi : i < l.length,
        approxScanGo slat slon (buildSpatialIndexGo k l) best md = k + i ∧
        scanDistRow slat slon (l.get ⟨i, hi⟩) < md ∧
        (∀ j, ∀ hj : j < l.length,
          scanDistRow slat slon (l.get ⟨i, hi⟩) ≤ scanDistRow slat slon (l.get ⟨j, hj⟩)) ∧
        (∀ j, ∀ hj : j < l.length, j < i →
          scanDistRow slat slon (l.get ⟨i, hi⟩) < scanDistRow slat slon (l.get ⟨j, hj⟩)) := by
  intro l
  induction l with
  | nil =>
    intro k best md hex
    obtain ⟨tz, htz, _⟩ := hex
    exact absurd htz (List.not_mem_nil tz)
  | cons tz rest ih =>
    intro k best md hex
    have hfold : jsAbsDiff slat (tz.lat * 10000 + 1/2) + jsAbsDiff slon (tz.lon * 10000 + 1/2)
        = scanDistRow slat slon tz := rfl
    by_cases hd : scanDistRow slat slon tz < md
    · by_cases hrest : ∃ tz2 ∈ rest, scanDistRow slat slon tz2 < scanDistRow slat slon tz
      · obtain ⟨i', hi', heq, hlt', hmin', hstrict'⟩ :=
          ih (k + 1) k (scanDistRow slat slon tz) hrest
        refine ⟨i' + 1, Nat.succ_lt_succ hi', ?_, ?_, ?_, ?_⟩
        · simp only [buildSpatialIndexGo, approxScanGo, hfold]
          rw [if_pos hd, heq]
          omega
        · exact lt_trans hlt' hd
        · intro j hj
          match j with
          | 0 => exact le_of_lt hlt'
          | j' + 1 => exact hmin' j' (Nat.lt_of_succ_lt_succ hj)
        · intro j hj hji
          match j with
          | 0 => exact hlt'
          | j' + 1 => exact hstrict' j' (Nat.lt_of_succ_lt_succ hj) (Nat.lt_of_succ_lt_succ hji)
      · push_neg at hrest
        refine ⟨0, Nat.succ_pos _, ?_, hd, ?_, ?_⟩
        · simp only [buildSpatialIndexGo, approxScanGo, hfold]
          rw [if_pos hd]
          rw [approxScanGo_no_improve slat slon rest (k + 1) k (scanDistRow slat slon tz) hrest]
          omega
        · intro j hj
          match j with
          | 0 => exact le_refl _
          | j' + 1 => exact hrest _ (rest.get_mem _ _)
        · intro j hj hji
          omega
    · have hexr : ∃ tz2 ∈ rest, scanDistRow slat slon tz2 < md := by
        obtain ⟨tz2, htz2, hlt2⟩ := hex
        rcases List.mem_cons.mp htz2 with h | h
        · subst h; exact absurd hlt2 hd
        · exact ⟨tz2, h, hlt2⟩
      obtain ⟨i', hi', heq, hlt', hmin', hstrict'⟩ := ih (k + 1) best md hexr
      refine ⟨i' + 1, Nat.succ_lt_succ hi', ?_, hlt', ?_, ?_⟩
      · simp only [buildSpatialIndexGo, approxScanGo, hfold]
        rw [if_neg hd, heq]
        omega
      · intro j hj
        match j with
        | 0 => exact le_trans (le_of_lt hlt') (not_lt.mp hd)
        | j' + 1 => exact hmin' j' (Nat.lt_of_succ_lt_succ hj)
      · intro j hj hji
        match j with
        | 0 => exact lt_of_lt_of_le hlt' (not_lt.mp hd)
        | j' + 1 => exact hstrict' j' (Nat.lt_of_succ_lt_succ hj) (Nat.lt_of_succ_lt_succ hji)

lemma headD_mem {α : Type} [Inhabited α] (l : List α) (hne : l ≠ []) :
    l.headD default ∈ l := by
  cases l with
  | nil => exact absurd rfl hne
  | cons a t => exact List.mem_cons_self a t

lemma jsSplit_ne_nil (sep : Char) (s : List Char) : jsSplit sep s ≠ [] := by
  cases s with
  | nil => simp [jsSplit]
  | cons c rest =>
    simp only [jsSplit]
    by_cases h : c = sep
    · rw [if_pos h]; simp
    · rw [if_neg h]
      cases hs : jsSplit sep rest with
      | nil => simp
      | cons p ps => simp

lemma jsSplit_get1_isSome (sep : Char) (s : List Char) (hmem : sep ∈ s) :
    ((jsSplit sep s).get? 1).isSome = true := by
  induction s with
  | nil => exact absurd hmem (List.not_mem_nil sep)
  | cons c rest ih =>
    simp only [jsSplit]
    by_cases h : c = sep
    · rw [if_pos h]
      cases hs : jsSplit sep rest with
      | nil => exact absurd hs (jsSplit_ne_nil sep rest)
      | cons p ps => simp
    · rw [if_neg h]
      have hmem' : sep ∈ rest := by
        rcases List.mem_cons.mp hmem with hx | hx
        · exact absurd hx.symm h
        · exact hx
      cases hs : jsSplit sep rest with
      | nil => exact absurd hs (jsSplit_ne_nil sep rest)
      | cons p ps =>
        have hx := ih hmem'
        rw [hs] at hx
        simpa using hx

lemma mem_of_isPrefixOf_append (p : List Char) (x : Char) (l : List Char)
    (h : (p ++ [x]).isPrefixOf l = true) : x ∈ l := by
  have hpre : (p ++ [x]) <+: l := by
    rw [← List.isPrefixOf_iff_prefix]
    exact h
  exact hpre.subset (List.mem_append_right p (List.mem_cons_self x []))

lemma cityTokenOf_isSome_of_slash (tz : ZoneRow) (h : '/' ∈ tz.tz_id) :
    (cityTokenOf tz).isSome = true := jsSplit_get1_isSome '/' tz.tz_id h

lemma selectBestContinentBranch_ok (s : List Char) (filtered_tzs : List ZoneRow)
    (hfne : filtered_tzs ≠ [])
    (hsafe : ('/' ∈ s) ∨ (∀ tz ∈ filtered_tzs, ¬ (s ++ ['/']).isPrefixOf tz.tz_id = true)) :
    ∃ tz, tz ∈ filtered_tzs ∧
      selectBestContinentBranch s filtered_tzs = .ok (some tz.tz_id) := by
  unfold selectBestContinentBranch
  by_cases hcme : filtered_tzs.filter
      (fun tz => (((jsSplit '/' s).headD []) ++ ['/']).isPrefixOf tz.tz_id) ≠ []
  · rw [if_pos hcme]
    have hcmsub : ∀ tz ∈ filtered_tzs.filter
        (fun tz => (((jsSplit '/' s).headD []) ++ ['/']).isPrefixOf tz.tz_id),
        tz ∈ filtered_tzs := fun tz htz => List.mem_of_mem_filter htz
    have hslash : '/' ∈ s := by
      by_cases hsl : '/' ∈ s
      · exact hsl
      · exfalso
        rcases hsafe with hs | hs
        · exact hsl hs
        · apply hcme
          apply List.filter_eq_nil.mpr
          intro tz htz
          have hc2 : (jsSplit '/' s).headD [] = s := by
            rw [jsSplit_no_sep '/' s hsl]
            rfl
          rw [hc2]
          exact hs tz htz
    cases hfind : (filtered_tzs.filter
        (fun tz => (((jsSplit '/' s).headD []) ++ ['/']).isPrefixOf tz.tz_id)).find?
        (fun tz => tz.tz_id = s) with
    | some e =>
      exact ⟨e, hcmsub e (List.mem_of_find?_eq_some hfind), rfl⟩
    | none =>
      obtain ⟨c, hc⟩ := Option.isSome_iff_exists.mp (jsSplit_get1_isSome '/' s hslash)
      have hwfcm : ∀ tz ∈ filtered_tzs.filter
          (fun tz => (((jsSplit '/' s).headD []) ++ ['/']).isPrefixOf tz.tz_id),
          (cityTokenOf tz).isSome = true := by
        intro tz htz
        apply cityTokenOf_isSome_of_slash
        apply mem_of_isPrefixOf_append ((jsSplit '/' s).headD []) '/' tz.tz_id
        exact (List.mem_filter.mp htz).2
      obtain ⟨r, hr, hcases⟩ := findBestMatchGo_full c _ none 0 hwfcm
      rw [hc]
      have hfb : findBestMatch (some c) (filtered_tzs.filter
          (fun tz => (((jsSplit '/' s).headD []) ++ ['/']).isPrefixOf tz.tz_id)) = .ok r := hr
      rw [hfb]
      rcases hcases with ⟨_, hre⟩ | ⟨tzx, hmemx, _, _, hre⟩
      · simp only at hre
        subst hre
        refine ⟨(filtered_tzs.filter _).headD default, hcmsub _ (headD_mem _ hcme), rfl⟩
      · by_cases hth : (1 : ℚ)/2 < simToCityOf c tzx
        · rw [if_pos hth] at hre
          subst hre
          exact ⟨tzx, hcmsub tzx hmemx, rfl⟩
        · rw [if_neg hth] at hre
          subst hre
          refine ⟨(filtered_tzs.filter _).headD default, hcmsub _ (headD_mem _ hcme), rfl⟩
  · rw [if_neg hcme]
    exact ⟨filtered_tzs.headD default, headD_mem filtered_tzs hfne, rfl⟩

lemma selectBest_ok (hint : Hint) (l : List ZoneRow)
    (hsafe : ∀ s, hint = .str s → ('/' ∈ s) ∨
      (∀ tz ∈ l, ¬ (s ++ ['/']).isPrefixOf tz.tz_id = true)) :
    ∃ r, selectBestMatchingTimeZone hint l = .ok r ∧
      (r = none ∨ ∃ tz ∈ l, r = some tz.tz_id) := by
  match l with
  | [] => exact ⟨none, rfl, Or.inl rfl⟩
  | [tz] => exact ⟨some tz.tz_id, rfl, Or.inr ⟨tz, List.mem_cons_self _ _, rfl⟩⟩
  | tz1 :: tz2 :: t =>
    have hlne : tz1 :: tz2 :: t ≠ [] := by simp
    have hfsub : ∀ tz ∈ (if (tz1 :: tz2 :: t).filter
          (fun tz => !(jsIncludes ['E', 't', 'c', '/'] tz.tz_id)) ≠ [] then
        (tz1 :: tz2 :: t).filter (fun tz => !(jsIncludes ['E', 't', 'c', '/'] tz.tz_id))
        else tz1 :: tz2 :: t), tz ∈ tz1 :: tz2 :: t := by
      intro tz htz
      by_cases hc : (tz1 :: tz2 :: t).filter
          (fun tz => !(jsIncludes ['E', 't', 'c', '/'] tz.tz_id)) ≠ []
      · rw [if_pos hc] at htz
        exact List.mem_of_mem_filter htz
      · rw [if_neg hc] at htz
        exact htz
    have hfne : (if (tz1 :: tz2 :: t).filter
          (fun tz => !(jsIncludes ['E', 't', 'c', '/'] tz.tz_id)) ≠ [] then
        (tz1 :: tz2 :: t).filter (fun tz => !(jsIncludes ['E', 't', 'c', '/'] tz.tz_id))
        else tz1 :: tz2 :: t) ≠ [] := by
      by_cases hc : (tz1 :: tz2 :: t).filter
          (fun tz => !(jsIncludes ['E', 't', 'c', '/'] tz.tz_id)) ≠ []
      · rw [if_pos hc]; exact hc
      · rw [if_neg hc]; exact hlne
    match hint with
    | .null =>
      exact ⟨_, rfl, Or.inr ⟨_, hfsub _ (headD_mem _ hfne), rfl⟩⟩
    | .num n =>
      exact ⟨_, rfl, Or.inr ⟨_, hfsub _ (headD_mem _ hfne), rfl⟩⟩
    | .str s =>
      show ∃ r, (if s ≠ [] then selectBestContinentBranch s _ else _) = .ok r ∧ _
      by_cases hse : s ≠ []
      · rw [if_pos hse]
        obtain ⟨tz, htz, hres⟩ := selectBestContinentBranch_ok s _ hfne (by
          rcases hsafe s rfl with h | h
          · exact Or.inl h
          · exact Or.inr (fun tz htz => h tz (hfsub tz htz)))
        exact ⟨some tz.tz_id, hres, Or.inr ⟨tz, hfsub tz htz, rfl⟩⟩
      · rw [if_neg hse]
        exact ⟨_, rfl, Or.inr ⟨_, hfsub _ (headD_mem _ hfne), rfl⟩⟩

lemma findTimeZoneByOffsetGo_ok (os : Option (List Char)) (b : Bool) :
    ∀ (db : List ZoneRow),
      (∀ tz ∈ db, (normalizeOffsetStr tz.utc_sdt).isSome = true ∧
        (normalizeOffsetStr tz.utc_dst).isSome = true) →
      ∃ r, findTimeZoneByOffsetGo os b db = .ok r ∧ ∀ tz ∈ r, tz ∈ db := by
  intro db
  induction db with
  | nil => intro _; exact ⟨[], rfl, by simp⟩
  | cons tz rest ih =>
    intro hwf
    obtain ⟨hstd, hdst⟩ := hwf tz (List.mem_cons_self tz rest)
    obtain ⟨std, hstd'⟩ := Option.isSome_iff_exists.mp hstd
    obtain ⟨dst, hdst'⟩ := Option.isSome_iff_exists.mp hdst
    obtain ⟨r, hr, hrsub⟩ := ih (fun tz2 h2 => hwf tz2 (List.mem_cons_of_mem tz h2))
    have hcons : ∀ tz2 ∈ tz :: r, tz2 ∈ tz :: rest := by
      intro tz2 h2
      rcases List.mem_cons.mp h2 with h2 | h2
      · subst h2; exact List.mem_cons_self _ _
      · exact List.mem_cons_of_mem tz (hrsub tz2 h2)
    have hrest : ∀ tz2 ∈ r, tz2 ∈ tz :: rest :=
      fun tz2 h2 => List.mem_cons_of_mem tz (hrsub tz2 h2)
    cases os with
    | none =>
      refine ⟨r, ?_, hrest⟩
      simp only [findTimeZoneByOffsetGo, hstd', hdst', hr]
      simp
    | some o =>
      by_cases hkeep : ((if b = true then dst else std) == o) = true
      · refine ⟨tz :: r, ?_, hcons⟩
        simp only [findTimeZoneByOffsetGo, hstd', hdst', hr, hkeep]
        simp
      · refine ⟨r, ?_, hrest⟩
        simp only [findTimeZoneByOffsetGo, hstd', hdst', hr]
        simp [hkeep]

lemma findTimeZoneByOffset_ok (db : List ZoneRow) (tz_offset : Option Int) (b : Bool)
    (hwf : ∀ tz ∈ db, (normalizeOffsetStr tz.utc_sdt).isSome = true ∧
      (normalizeOffsetStr tz.utc_dst).isSome = true) :
    ∃ r, findTimeZoneByOffset db tz_offset b = .ok r ∧ ∀ tz ∈ r, tz ∈ db :=
  findTimeZoneByOffsetGo_ok (tz_offset.map normalizeOffsetNum) b db hwf

lemma determineOffset_ok (db : List ZoneRow) (tz : ZoneRow) (htz : tz ∈ db)
    (hid : wfZoneId tz.tz_id = true) :
    ∃ v, determineOffset db tz.tz_id = .ok v := by
  unfold determineOffset
  unfold wfZoneId at hid
  cases hidx : tz.tz_id.findIdx? (fun c => c = '/') with
  | none => rw [hidx] at hid; exact absurd hid (by simp)
  | some i =>
    rw [hidx] at hid
    simp only [Bool.and_eq_true, decide_eq_true_eq] at hid
    have hcond : ¬ (tz.tz_id.take i = [] ∨ tz.tz_id.drop (i + 1) = []) := by
      intro hcon
      rcases hcon with h | h
      · exact hid.1 h
      · exact hid.2 h
    dsimp only
    rw [if_neg hcond]
    have hmemf : tz ∈ db.filter (fun tz2 => tz2.tz_id = tz.tz_id) :=
      List.mem_filter.mpr ⟨htz, by simp⟩
    cases hfil : db.filter (fun tz2 => tz2.tz_id = tz.tz_id) with
    | nil => rw [hfil] at hmemf; exact absurd hmemf (List.not_mem_nil tz)
    | cons m t =>
      exact ⟨str2offset m.utc_sdt, rfl⟩

lemma initializeTimezoneData_mem (db : List ZoneRow) (hint : Hint) (d : ZoneRow)
    (h : initializeTimezoneData db hint = some d) : d ∈ db := by
  unfold initializeTimezoneData at h
  cases hint with
  | null => exact absurd h (by simp)
  | num n => exact absurd h (by simp)
  | str s =>
    dsimp only at h
    cases hf : db.find? (fun tz => tz.tz_id = s) with
    | some tz =>
      rw [hf] at h
      cases h
      exact List.mem_of_find?_eq_some hf
    | none =>
      rw [hf] at h
      exact List.mem_of_find?_eq_some h

lemma getLocationStep0_ok (db : List ZoneRow) (hint : Hint)
    (hsafe : ∀ s, hint = .str s → ('/' ∈ s) ∨
      (∀ tz ∈ db, ¬ (s ++ ['/']).isPrefixOf tz.tz_id = true)) :
    ∃ loc dm, getLocationStep0 db hint = .ok (loc, dm) ∧ LocInv db loc := by
  unfold getLocationStep0
  by_cases ht : hintTruthy hint = true
  · rw [if_pos ht]
    match hint with
    | .null => exact ⟨none, none, rfl, Or.inl rfl⟩
    | .num n => exact ⟨none, some (some (n * 60)), rfl, Or.inl rfl⟩
    | .str s =>
      dsimp only
      by_cases hre : matchesHHMM s = true
      · rw [if_pos hre]
        exact ⟨none, some (str2offset s), rfl, Or.inl rfl⟩
      · rw [if_neg hre]
        by_cases hcm : db.filter
            (fun tz => (((jsSplit '/' s).headD []) ++ ['/']).isPrefixOf tz.tz_id) ≠ []
        · rw [if_pos hcm]
          obtain ⟨r, hr, hinv⟩ := selectBest_ok (.str s) (db.filter
            (fun tz => (((jsSplit '/' s).headD []) ++ ['/']).isPrefixOf tz.tz_id))
            (by
              intro s2 hs2
              cases hs2
              rcases hsafe s rfl with h | h
              · exact Or.inl h
              · exact Or.inr (fun tz htz => h tz (List.mem_of_mem_filter htz)))
          rw [hr]
          refine ⟨r, none, rfl, ?_⟩
          rcases hinv with h | ⟨tz, htz, h⟩
          · exact Or.inl h
          · exact Or.inr (Or.inr ⟨tz, List.mem_of_mem_filter htz, h⟩)
        · rw [if_neg hcm]
          exact ⟨some "Unknown".data, none, rfl, Or.inr (Or.inl rfl)⟩
  · rw [if_neg ht]
    exact ⟨none, none, rfl, Or.inl rfl⟩

lemma getLocationStep1_ok (db : List ZoneRow) (hint : Hint)
    (loc0 : Option (List Char)) (dm0 : Option (Option Int))
    (hwf : WfDb db)
    (hsafe : ∀ s, hint = .str s → ('/' ∈ s) ∨
      (∀ tz ∈ db, ¬ (s ++ ['/']).isPrefixOf tz.tz_id = true))
    (hinv0 : LocInv db loc0) :
    ∃ loc1, getLocationStep1 db hint loc0 dm0 = .ok loc1 ∧ LocInv db loc1 := by
  unfold getLocationStep1
  cases dm0 with
  | none => exact ⟨loc0, rfl, hinv0⟩
  | some dm =>
    dsimp only
    by_cases hf : locFalsy loc0 = true
    · rw [if_pos hf]
      obtain ⟨mt, hmt, hmtsub⟩ := findTimeZoneByOffset_ok db dm false
        (fun tz htz => ⟨(hwf tz htz).2.1, (hwf tz htz).2.2⟩)
      rw [hmt]
      dsimp only
      obtain ⟨r, hr, hinv⟩ := selectBest_ok hint mt (by
        intro s2 hs2
        rcases hsafe s2 hs2 with h | h
        · exact Or.inl h
        · exact Or.inr (fun tz htz => h tz (hmtsub tz htz)))
      rw [hr]
      refine ⟨r, rfl, ?_⟩
      rcases hinv with h | ⟨tz, htz, h⟩
      · exact Or.inl h
      · exact Or.inr (Or.inr ⟨tz, hmtsub tz htz, h⟩)
    · rw [if_neg hf]
      exact ⟨loc0, rfl, hinv0⟩

lemma getLocationStep2_ok (db : List ZoneRow) (hint : Hint)
    (current_tz_offset : Int) (is_dst_now : Bool) (loc1 : Option (List Char))
    (hwf : WfDb db)
    (hsafe : ∀ s, hint = .str s → ('/' ∈ s) ∨
      (∀ tz ∈ db, ¬ (s ++ ['/']).isPrefixOf tz.tz_id = true))
    (hinv1 : LocInv db loc1) :
    ∃ loc2, getLocationStep2 db hint current_tz_offset is_dst_now loc1 = .ok loc2 ∧
      LocInv db loc2 := by
  unfold getLocationStep2
  by_cases hf : locFalsy loc1 = true
  · rw [if_pos hf]
    obtain ⟨mt, hmt, hmtsub⟩ := findTimeZoneByOffset_ok db (some current_tz_offset) is_dst_now
      (fun tz htz => ⟨(hwf tz htz).2.1, (hwf tz htz).2.2⟩)
    rw [hmt]
    dsimp only
    obtain ⟨r, hr, hinv⟩ := selectBest_ok hint mt (by
      intro s2 hs2
      rcases hsafe s2 hs2 with h | h
      · exact Or.inl h
      · exact Or.inr (fun tz htz => h tz (hmtsub tz htz)))
    rw [hr]
    refine ⟨r, rfl, ?_⟩
    rcases hinv with h | ⟨tz, htz, h⟩
    · exact Or.inl h
    · exact Or.inr (Or.inr ⟨tz, hmtsub tz htz, h⟩)
  · rw [if_neg hf]
    exact ⟨loc1, rfl, hinv1⟩

lemma getLocationStep3_ok (db : List ZoneRow) (hint : Hint)
    (offset_str : List Char) (loc2 : Option (List Char))
    (hsafe : ∀ s, hint = .str s → ('/' ∈ s) ∨
      (∀ tz ∈ db, ¬ (s ++ ['/']).isPrefixOf tz.tz_id = true))
    (hinv2 : LocInv db loc2) :
    ∃ loc3, getLocationStep3 db hint offset_str loc2 = .ok loc3 ∧ LocInv db loc3 := by
  unfold getLocationStep3
  by_cases hn : loc2 = none
  · rw [if_pos hn]
    by_cases hfb : db.filter
        (fun tz => tz.utc_sdt = offset_str ∨ tz.utc_dst = offset_str) ≠ []
    · rw [if_pos hfb]
      obtain ⟨r, hr, hinv⟩ := selectBest_ok hint (db.filter
        (fun tz => tz.utc_sdt = offset_str ∨ tz.utc_dst = offset_str)) (by
        intro s2 hs2
        rcases hsafe s2 hs2 with h | h
        · exact Or.inl h
        · exact Or.inr (fun tz htz => h tz (List.mem_of_mem_filter htz)))
      rw [hr]
      refine ⟨r, rfl, ?_⟩
      rcases hinv with h | ⟨tz, htz, h⟩
      · exact Or.inl h
      · exact Or.inr (Or.inr ⟨tz, List.mem_of_mem_filter htz, h⟩)
    · rw [if_neg hfb]
      exact ⟨loc2, rfl, hinv2⟩
  · rw [if_neg hn]
    exact ⟨loc2, rfl, hinv2⟩

lemma getLocationFinish_ok (db : List ZoneRow) (loc3 : Option (List Char))
    (hwf : WfDb db) (hinv3 : LocInv db loc3) :
    ∃ r, getLocationFinish db loc3 = .ok r ∧
      (r = "Unknown".data ∨ ∃ tz ∈ db, r = tz.tz_id) := by
  unfold getLocationFinish
  rcases hinv3 with h | h | ⟨tz, htz, h⟩
  · subst h
    exact ⟨"Unknown".data, by simp, Or.inl rfl⟩
  · subst h
    refine ⟨"Unknown".data, ?_, Or.inl rfl⟩
    simp
  · subst h
    dsimp only
    rw [if_neg (by simp : ¬ (some tz.tz_id = (none : Option (List Char))))]
    by_cases hu : (some tz.tz_id).getD ([] : List Char) ≠ "Unknown".data
    · rw [if_pos hu]
      obtain ⟨v, hv⟩ := determineOffset_ok db tz htz (hwf tz htz).1
      have hgd : (some tz.tz_id).getD ([] : List Char) = tz.tz_id := rfl
      rw [hgd] at hu ⊢
      rw [hv]
      exact ⟨tz.tz_id, rfl, Or.inr ⟨tz, htz, rfl⟩⟩
    · rw [if_neg hu]
      exact ⟨(some tz.tz_id).getD [], rfl, Or.inr ⟨tz, htz, rfl⟩⟩

/-! ## The claims -/

/-- C1: for every instant and every 16-bit DST rule other than the no-DST
sentinel `"00"`, with start and end instants built at 02:00 UTC on the
computed nth-Sunday dates of the instant's year: if start ≤ end, DST
membership (`isDstPeriod`) is true iff start ≤ instant < end; if start > end
(a rule spanning the year boundary), it is true iff instant ≥ start or
instant < end. -/
theorem isDstPeriod_spec (d : CalDateTime) (s : List Char) (r : Nat)
    (hr : jsParseHex s = some (r : Int)) (h16 : r < 65536) (hs : s ≠ ['0', '0']) :
    isDstPeriod d s =
      (let start := dstTransitionInstant d.year (r % 16 : Nat) (r / 16 % 8 : Nat)
       let finish := dstTransitionInstant d.year (r / 256 % 16 : Nat) (r / 4096 % 8 : Nat)
       if start ≤ finish then decide (start ≤ instantOf d ∧ instantOf d < finish)
       else decide (instantOf d ≥ start ∨ instantOf d < finish)) := by
  unfold isDstPeriod dstTransitionInstant
  rw [if_neg hs, hr]
  simp only [hexField_of_lt r h16]
  norm_num


/-- Witness for C1 at the documented New York rule `B13` and
2024-07-01T12:00. -/
theorem isDstPeriod_spec_witness : isDstPeriod julyNoon ['B', '1', '3'] = true := by
  have h := isDstPeriod_spec julyNoon ['B', '1', '3'] 2835 (by decide) (by decide) (by decide)
  rw [h]; decide


/-- C2 (code bug): `#nthWeekdayOfMonth` with `n = 0` returns the FIRST
occurrence of the weekday, not the last one the spec and the source's own
doc comment (`Handles the "last" week of the month when n is 0`) describe:
for March 2024 and Sunday it returns 3 (the first Sunday) although the last
Sunday is the 31st. -/
theorem nthWeekdayOfMonth_week0_first_not_last :
    nthWeekdayOfMonth 2024 3 0 0 = 3 ∧
    firstWeekdayDayOfMonth 2024 3 0 = 3 ∧
    lastWeekdayDayOfMonth 2024 3 0 = 31 ∧
    (3 : Int) ≠ 31 := by decide


/-- C3 (code bug): for the southern-hemisphere rule `141A` (DST from the
first Sunday of October to the first Sunday of April) at 2024-01-15T12:00,
`getTimeUntilNextDstChange` returns this year's START (2024-10-06T02:00,
tagged `change_to_dst = true`) although this year's END (2024-04-07T02:00)
is strictly future and strictly sooner — and DST is currently active by the
library's own `isDstPeriod`, so the returned transition is not the next
one. -/
theorem getTimeUntilNextDstChange_southern_not_soonest :
    getTimeUntilNextDstChange janNoon (some ['1', '4', '1', 'A']) =
      some ⟨1728180000000, 22860000000, true⟩ ∧
    dstTransitionInstant 2024 10 1 = 1728180000000 ∧
    dstTransitionInstant 2024 4 1 = 1712455200000 ∧
    instantOf janNoon = 1705320000000 ∧
    (1705320000000 : Int) < 1712455200000 ∧
    (1712455200000 : Int) < 1728180000000 ∧
    isDstPeriod janNoon ['1', '4', '1', 'A'] = true := by decide


/-- C4: formatting then parsing round-trips every integer minute offset in
[-720, 840]: `str2offset (offset2str m) = some m` (the `some` reflecting a
non-`NaN` parse), with `offset2str` always sign-explicit zero-padded
`±HH:MM`. -/
theorem str2offset_offset2str (m : Int) (h1 : -720 ≤ m) (h2 : m ≤ 840) :
    str2offset (offset2str m) = some m := by
  have habs : m.natAbs ≤ 840 := by omega
  have hh : m.natAbs / 60 < 100 := by omega
  have hmm : m.natAbs % 60 < 100 := by omega
  have hshape : offset2str m = (if 0 ≤ m then '+' else '-') ::
      (padZeroStart 2 (natDecDigits (m.natAbs / 60)) ++
        ':' :: padZeroStart 2 (natDecDigits (m.natAbs % 60))) := rfl
  by_cases h0 : 0 ≤ m
  · rw [hshape, if_pos h0,
        str2offset_signed '+' (Or.inl rfl) (m.natAbs / 60) (m.natAbs % 60) hh hmm]
    have hne : ¬ ('+' : Char) = '-' := by decide
    rw [if_neg hne]
    congr 1
    have := Nat.div_add_mod m.natAbs 60
    omega
  · rw [hshape, if_neg h0,
        str2offset_signed '-' (Or.inr rfl) (m.natAbs / 60) (m.natAbs % 60) hh hmm]
    rw [if_pos rfl]
    congr 1
    have := Nat.div_add_mod m.natAbs 60
    omega


/-- Witness for C4 at `m = -300`. -/
theorem str2offset_offset2str_witness : str2offset (offset2str (-300)) = some (-300) :=
  str2offset_offset2str (-300) (by norm_num) (by norm_num)


/-- C5 (code bug): `#isDstNow` reads the `utc_dst` property of an
array-shaped row (`undefined`), so it returns false for every input, and
offset resolution therefore always compares the STANDARD offset — here, at
2024-07-01T12:00 with DST in effect for America/New_York by the library's
own `isDstPeriod`, the input offset -240 minutes equals the zone's
(normalized) DST offset, yet `#findTimeZoneByOffset` returns no candidate. -/
theorem isDstNow_always_false_excludes_dst_offset_match :
    isDstNow [nyRow] none (-240) = false ∧
    isDstNow [nyRow] (some (-240)) (-240) = false ∧
    isDstPeriod julyNoon nyRow.dst_rule = true ∧
    normalizeOffsetStr nyRow.utc_dst = some (normalizeOffsetNum (-240)) ∧
    findTimeZoneByOffset [nyRow] (some (-240)) (isDstNow [nyRow] none (-240)) = .ok [] := by
  decide


/-- C6 counterexample: a bare continent name as construction hint makes
`getLocation` throw a `TypeError` (the fuzzy matcher receives an `undefined`
city token), contradicting `resolution itself never raises`. -/
theorem getLocation_bare_continent_raises :
    getLocation [londonRow, parisRow] (.str "Europe".data) 0 =
      .error "TypeError: cannot read toLowerCase of undefined" := by decide


/-- C6 (amended): for a well-formed table and any construction hint that is
not a bare continent-like prefix (a slash-free string s such that some table
id starts with `s ++ "/"`), `getLocation` never raises and returns either a
table zone id or the sentinel `"Unknown"`. -/
theorem getLocation_total (db : List ZoneRow) (hint0 : Hint) (host_offset : Int)
    (hwf : WfDb db) (hsafe : SafeHint db hint0) :
    ∃ r, getLocation db hint0 host_offset = .ok r ∧
      (r = "Unknown".data ∨ ∃ tz ∈ db, r = tz.tz_id) := by
  have hsafe' : ∀ s, stripUtcHint hint0 = .str s → ('/' ∈ s) ∨
      (∀ tz ∈ db, ¬ (s ++ ['/']).isPrefixOf tz.tz_id = true) := by
    intro s hs
    unfold SafeHint at hsafe
    rw [hs] at hsafe
    exact hsafe
  unfold getLocation
  cases hinit : initializeTimezoneData db hint0 with
  | some d =>
    exact ⟨d.tz_id, rfl, Or.inr ⟨d, initializeTimezoneData_mem db hint0 d hinit, rfl⟩⟩
  | none =>
    dsimp only
    obtain ⟨loc0, dm0, h0, hinv0⟩ := getLocationStep0_ok db (stripUtcHint hint0) hsafe'
    rw [h0]
    dsimp only
    obtain ⟨loc1, h1, hinv1⟩ :=
      getLocationStep1_ok db (stripUtcHint hint0) loc0 dm0 hwf hsafe' hinv0
    rw [h1]
    dsimp only
    obtain ⟨loc2, h2, hinv2⟩ := getLocationStep2_ok db (stripUtcHint hint0) host_offset
      (isDstNow db none host_offset) loc1 hwf hsafe' hinv1
    rw [h2]
    dsimp only
    obtain ⟨loc3, h3, hinv3⟩ := getLocationStep3_ok db (stripUtcHint hint0)
      (offset2str host_offset) loc2 hsafe' hinv2
    rw [h3]
    dsimp only
    exact getLocationFinish_ok db loc3 hwf hinv3


/-- Witness for C6 at the hint `-4` hours against a two-row table. -/
theorem getLocation_total_witness :
    ∃ r, getLocation [nyRow, asuncionRow] (.num (-4)) 0 = .ok r ∧
      (r = "Unknown".data ∨ ∃ tz ∈ [nyRow, asuncionRow], r = tz.tz_id) :=
  getLocation_total [nyRow, asuncionRow] (.num (-4)) 0 (by unfold WfDb; decide) trivial


/-- C7: the fuzzy matcher accepts (returns a candidate) iff the best
similarity strictly exceeds the 0.5 threshold, the accepted candidate is a
maximal-scoring member; the score is 1 for case-insensitively equal strings
and otherwise `char_ratio * w_c + pos_score * w_p` with
`w_c = 0.8 + 0.15 (1 - len_ratio) ∈ [0.8, 0.95]` increasing with length
imbalance, `w_p = 0.2 - 0.15 (1 - len_ratio) ∈ [0.05, 0.2]`, and the
per-position contribution `(max_len - i)/max_len` weighting earlier
positions more. -/
theorem findBestMatch_similarity_spec (city : List Char) (tzs : List ZoneRow)
    (hwf : ∀ tz ∈ tzs, (cityTokenOf tz).isSome) :
    (∃ r, findBestMatch (some city) tzs = .ok r ∧
      ((r = none ∧ ∀ tz ∈ tzs, simToCityOf city tz ≤ 1/2) ∨
       (∃ tz s, r = some (tz, s) ∧ tz ∈ tzs ∧ s = simToCityOf city tz ∧ 1/2 < s ∧
         ∀ tz2 ∈ tzs, simToCityOf city tz2 ≤ s))) ∧
    (∀ a b : List Char, jsToLower a = jsToLower b → calculateStringSimilarity a b = 1) ∧
    (∀ a b : List Char, jsToLower a ≠ jsToLower b →
      (calculateStringSimilarity a b =
        charRatio (jsToLower a) (jsToLower b) * charWeight (jsToLower a) (jsToLower b)
          + posScoreOf (jsToLower a) (jsToLower b)
              (max (jsToLower a).length (jsToLower b).length)
              * posWeight (jsToLower a) (jsToLower b)) ∧
      8/10 ≤ charWeight (jsToLower a) (jsToLower b) ∧
      charWeight (jsToLower a) (jsToLower b) ≤ 95/100 ∧
      1/20 ≤ posWeight (jsToLower a) (jsToLower b) ∧
      posWeight (jsToLower a) (jsToLower b) ≤ 2/10) ∧
    (∀ s1 s2 s3 s4 : List Char, lenRatio s3 s4 ≤ lenRatio s1 s2 →
      charWeight s1 s2 ≤ charWeight s3 s4 ∧ posWeight s3 s4 ≤ posWeight s1 s2) ∧
    (∀ mLen i j : Nat, i ≤ j →
      ((mLen : ℚ) - (j : ℚ)) / (mLen : ℚ) ≤ ((mLen : ℚ) - (i : ℚ)) / (mLen : ℚ)) := by
  refine ⟨?_, ?_, ?_, ?_, ?_⟩
  · obtain ⟨r, hr, hc⟩ := findBestMatchGo_full city tzs none 0 hwf
    refine ⟨r, hr, ?_⟩
    rcases hc with ⟨hall, hre⟩ | ⟨tz, hmem, hpos, hmax, hre⟩
    · left
      refine ⟨by simpa using hre, fun tz h => le_trans (hall tz h) (by norm_num)⟩
    · by_cases hth : (1 : ℚ)/2 < simToCityOf city tz
      · right
        exact ⟨tz, simToCityOf city tz, by rw [hre, if_pos hth], hmem, rfl, hth, hmax⟩
      · left
        refine ⟨by rw [hre, if_neg hth], fun tz2 h2 => le_trans (hmax tz2 h2) (not_lt.mp hth)⟩
  · intro a b h
    simp [calculateStringSimilarity, h]
  · intro a b h
    obtain ⟨hge, hle⟩ := lenRatio_bounds (jsToLower a) (jsToLower b) h
    refine ⟨?_, ?_, ?_, ?_, ?_⟩
    · simp only [calculateStringSimilarity, if_neg h]
    · rw [charWeight]; linarith
    · rw [charWeight]; linarith
    · rw [posWeight]; linarith
    · rw [posWeight]; linarith
  · intro s1 s2 s3 s4 hlr
    constructor
    · rw [charWeight, charWeight]; linarith
    · rw [posWeight, posWeight]; linarith
  · intro mLen i j hij
    rcases Nat.eq_zero_or_pos mLen with h0 | hpos
    · subst h0
      norm_num
    · have hm : 0 < (mLen : ℚ) := by exact_mod_cast hpos
      have : ((mLen : ℚ) - (j : ℚ)) ≤ ((mLen : ℚ) - (i : ℚ)) := by
        have : (i : ℚ) ≤ (j : ℚ) := by exact_mod_cast hij
        linarith
      exact (div_le_div_right hm).mpr this


/-- Witness for C7 at the misspelled city `WarZaw` against Europe/Warsaw. -/
theorem findBestMatch_similarity_spec_witness :
    ∃ r, findBestMatch (some "WarZaw".data) [warsawRow] = .ok r ∧
      ((r = none ∧ ∀ tz ∈ [warsawRow], simToCityOf "WarZaw".data tz ≤ 1/2) ∨
       (∃ tz s, r = some (tz, s) ∧ tz ∈ [warsawRow] ∧
         s = simToCityOf "WarZaw".data tz ∧ 1/2 < s ∧
         ∀ tz2 ∈ [warsawRow], simToCityOf "WarZaw".data tz2 ≤ s)) :=
  (findBestMatch_similarity_spec "WarZaw".data [warsawRow] (by decide)).1


/-- C8 counterexample: because the spatial index shifts entry coordinates by
an un-floored `+ 0.5` while the input is not shifted, querying exactly the
coordinates of the second table entry returns the FIRST entry, although the
second has strictly smaller (zero) Manhattan distance between the
×10000-scaled coordinates the claim describes. -/
theorem getApproxLocation_shift_counterexample :
    getApproxLocation geoDb none (1/10000) 0 = some "Z1".data ∧
    geoDb.get? 1 = some geoZ2 ∧ geoZ2.tz_id = "Z2".data ∧
    claimManhattan (1/10000) 0 geoZ2 = 0 ∧
    claimManhattan (1/10000) 0 geoZ1 = 1 := by
  refine ⟨?_, rfl, by decide, ?_, ?_⟩
  · norm_num [getApproxLocation, buildSpatialIndex, buildSpatialIndexGo, approxScanGo,
      jsAbsDiff, geoDb, geoZ1, geoZ2]
  · norm_num [claimManhattan, geoZ2]
  · norm_num [claimManhattan, geoZ1]


/-- C8 (amended): `getApproxLocation` returns the `zone_id` of the table
entry whose `×10000`-scaled-plus-half coordinates (`codeGeoDist`) have
minimum Manhattan distance to the scaled input, ties broken by table order
(the strict-improvement scan keeps the first minimum); the result is the
same whether the spatial-index cache is absent or holds the built index, so
coincident inputs always resolve identically regardless of cache state. -/
theorem getApproxLocation_spec (db : List ZoneRow) (cache : Option (List SpatialEntry))
    (lat lon : ℚ)
    (hcache : cache = none ∨ cache = some (buildSpatialIndex db))
    (hne : db ≠ [])
    (hbound : ∀ tz ∈ db, codeGeoDist lat lon tz < 9007199254740991) :
    ∃ i, ∃ hi : i < db.length,
      getApproxLocation db cache lat lon = some ((db.get ⟨i, hi⟩).tz_id) ∧
      (∀ j, ∀ hj : j < db.length,
        codeGeoDist lat lon (db.get ⟨i, hi⟩) ≤ codeGeoDist lat lon (db.get ⟨j, hj⟩)) ∧
      (∀ j, ∀ hj : j < db.length, j < i →
        codeGeoDist lat lon (db.get ⟨i, hi⟩) < codeGeoDist lat lon (db.get ⟨j, hj⟩)) := by
  obtain ⟨tz0, rest0, hdb⟩ := List.exists_cons_of_ne_nil hne
  have hmem0 : tz0 ∈ db := by rw [hdb]; exact List.mem_cons_self _ _
  have hex : ∃ tz ∈ db, scanDistRow (lat * 10000) (lon * 10000) tz < 9007199254740991 := by
    refine ⟨tz0, hmem0, ?_⟩
    rw [scanDistRow_eq_codeGeoDist]
    exact hbound tz0 hmem0
  obtain ⟨i, hi, heq, _, hmin, hstrict⟩ :=
    approxScanGo_improve (lat * 10000) (lon * 10000) db 0 0 9007199254740991 hex
  have hres : getApproxLocation db cache lat lon = some ((db.get ⟨i, hi⟩).tz_id) := by
    rcases hcache with h | h <;>
    · subst h
      simp only [getApproxLocation, buildSpatialIndex]
      rw [heq, Nat.zero_add, List.get?_eq_get hi]
      rfl
  refine ⟨i, hi, hres, ?_, ?_⟩
  · intro j hj
    rw [← scanDistRow_eq_codeGeoDist, ← scanDistRow_eq_codeGeoDist]
    exact hmin j hj
  · intro j hj hji
    rw [← scanDistRow_eq_codeGeoDist, ← scanDistRow_eq_codeGeoDist]
    exact hstrict j hj hji


/-- Witness for C8 at the two-entry table and the exact coordinates of the
second entry. -/
theorem getApproxLocation_spec_witness :
    ∃ i, ∃ hi : i < geoDb.length,
      getApproxLocation geoDb none (1/10000) 0 = some ((geoDb.get ⟨i, hi⟩).tz_id) ∧
      (∀ j, ∀ hj : j < geoDb.length,
        codeGeoDist (1/10000) 0 (geoDb.get ⟨i, hi⟩) ≤ codeGeoDist (1/10000) 0 (geoDb.get ⟨j, hj⟩)) ∧
      (∀ j, ∀ hj : j < geoDb.length, j < i →
        codeGeoDist (1/10000) 0 (geoDb.get ⟨i, hi⟩) < codeGeoDist (1/10000) 0 (geoDb.get ⟨j, hj⟩)) :=
  getApproxLocation_spec geoDb none (1/10000) 0 (Or.inl rfl) (by decide) (by
    intro tz htz
    rcases List.mem_cons.mp htz with h | h
    · subst h
      norm_num [codeGeoDist, jsAbsDiff, geoZ1]
    · rcases List.mem_cons.mp h with h | h
      · subst h
        norm_num [codeGeoDist, jsAbsDiff, geoZ2]
      · exact absurd h (List.not_mem_nil tz))


/-- C9 counterexample: `clearCache` between two identical queries under the
same clock can change the second query's result in two ways.  (a)
`getDaylightStatus` caches its status UNKEYED: after priming the cache with
America/New_York (DST active), querying Asia/Tokyo twice yields `true`
without clearing but `false` (the fresh answer) with `clearCache` in
between.  (b) `getLocation`'s first resolution stores `#default_offset_mins`
(here -570, the standard offset of the zone its raw-dst-string fallback
matched at host offset +180), and `clearCache` does not reset that field:
without clearing the second identical query returns the cached Test/Azone,
but after `clearCache` the recomputation runs `#calculateTZ` on the stored
-570 and returns Test/Bzone instead. -/
theorem clearCache_changes_results :
    (getDaylightStatusS none dbNYTokyo julyNoon
        (getDaylightStatusS none dbNYTokyo julyNoon
          (getDaylightStatusS none dbNYTokyo julyNoon none "America/New_York".data).2
          "Asia/Tokyo".data).2
        "Asia/Tokyo".data).1 = true ∧
    (getDaylightStatusS none dbNYTokyo julyNoon
        (clearCacheS ⟨none,
          (getDaylightStatusS none dbNYTokyo julyNoon
            (getDaylightStatusS none dbNYTokyo julyNoon none "America/New_York".data).2
            "Asia/Tokyo".data).2, none⟩).dst_status_cache
        "Asia/Tokyo".data).1 = false ∧
    getLocationS offsetFallbackDb .null 180 initialFacadeState =
      .ok ("Test/Azone".data,
        ⟨some "Test/Azone".data, none, some (some (-570))⟩) ∧
    getLocationS offsetFallbackDb .null 180
        ⟨some "Test/Azone".data, none, some (some (-570))⟩ =
      .ok ("Test/Azone".data,
        ⟨some "Test/Azone".data, none, some (some (-570))⟩) ∧
    getLocationS offsetFallbackDb .null 180
        (clearCacheS ⟨some "Test/Azone".data, none, some (some (-570))⟩) =
      .ok ("Test/Bzone".data,
        ⟨some "Test/Bzone".data, none, some (some (-570))⟩) ∧
    ("Test/Azone".data : List Char) ≠ "Test/Bzone".data := by decide


/-- C9 (amended): `clearCache` between two identical queries under the same
clock is transparent exactly up to the state it does not erase.  For
`getDaylightStatus`: when the unkeyed DST-status cache is empty before the
first of the two queries (in particular when no earlier status query with a
different argument populated it), interposing `clearCache` never changes the
second query's result.  For `getLocation`: when the first query runs on an
empty location cache and leaves `#default_offset_mins` unchanged (the field
`clearCache` does not reset), the post-clear recomputation returns the same
location the first query returned, which is also what the query without the
clear returns from the cache. -/
theorem clearCache_transparency_characterization :
    (∀ (tzd : Option ZoneRow) (db : List ZoneRow) (now : CalDateTime)
      (lc : Option (List Char)) (dm : Option (Option Int)) (loc : List Char),
      (getDaylightStatusS tzd db now
          (clearCacheS ⟨lc, (getDaylightStatusS tzd db now none loc).2, dm⟩).dst_status_cache
          loc).1 =
        (getDaylightStatusS tzd db now (getDaylightStatusS tzd db now none loc).2 loc).1) ∧
    (∀ (db : List ZoneRow) (hint0 : Hint) (host_offset : Int) (st : FacadeState)
      (r : List Char) (st' : FacadeState),
      st.location_cache = none →
      getLocationS db hint0 host_offset st = .ok (r, st') →
      st'.default_offset_mins = st.default_offset_mins →
      (∃ st2, getLocationS db hint0 host_offset (clearCacheS st') = .ok (r, st2)) ∧
        getLocationS db hint0 host_offset st' = .ok (r, st')) := by
  constructor
  · intro tzd db now lc dm loc
    cases tzd with
    | some d => rfl
    | none =>
      simp only [getDaylightStatusS, clearCacheS]
      cases h : db.find? (fun tz => tz.tz_id = loc) with
      | none => simp [h]
      | some tz =>
        by_cases hr : tz.dst_rule = ['0', '0']
        · simp [h, hr]
        · simp [h, hr]
  · intro db hint0 host_offset st r st' hlc hrun hdm
    unfold getLocationS at hrun ⊢
    cases hinit : initializeTimezoneData db hint0 with
    | some d =>
      rw [hinit] at hrun
      dsimp only at hrun ⊢
      obtain ⟨h1, -⟩ : d.tz_id = r ∧ st = st' := by simpa using hrun
      subst h1
      exact ⟨⟨clearCacheS st', rfl⟩, rfl⟩
    | none =>
      rw [hinit, hlc] at hrun
      dsimp only at hrun ⊢
      cases hcomp : getLocationCompute db (stripUtcHint hint0) host_offset
          st.default_offset_mins with
      | error e =>
        rw [hcomp] at hrun
        dsimp only at hrun
        exact Except.noConfusion hrun
      | ok p =>
        cases p with
        | mk loc4 dmf =>
          rw [hcomp] at hrun
          dsimp only at hrun
          obtain ⟨h1, h2⟩ :
              loc4 = r ∧ FacadeState.mk (some loc4) st.dst_status_cache dmf = st' := by
            simpa using hrun
          subst h1
          subst h2
          dsimp only at hdm
          constructor
          · refine ⟨⟨some loc4, none, st.default_offset_mins⟩, ?_⟩
            dsimp only [clearCacheS]
            rw [hdm] at hcomp ⊢
            rw [hcomp]
          · rfl


/-- Witness for the C9 amended theorem's `getLocation` part at a concrete
input: a Wrong/City hint resolves to Unknown, leaving `#default_offset_mins`
untouched, and interposing `clearCache` does not change the second query's
result. -/
theorem clearCache_transparency_characterization_witness :
    (∃ st2, getLocationS [nyRow] (.str "Wrong/City".data) 0
        (clearCacheS ⟨some "Unknown".data, none, none⟩) = .ok ("Unknown".data, st2)) ∧
      getLocationS [nyRow] (.str "Wrong/City".data) 0 ⟨some "Unknown".data, none, none⟩ =
        .ok ("Unknown".data, ⟨some "Unknown".data, none, none⟩) :=
  clearCache_transparency_characterization.2 [nyRow] (.str "Wrong/City".data) 0
    initialFacadeState "Unknown".data ⟨some "Unknown".data, none, none⟩ rfl (by decide) rfl


/-- C10: `getDaylightStatus` does not depend on its location argument once a
status is determined: with a resolved `#tz_data` the argument (and the
cache) is ignored entirely; without one, a populated unkeyed cache is
returned for every location argument; and a computed status is either
written to the unkeyed cache or the call is an uncached early-return
`false`. -/
theorem getDaylightStatus_ignores_location_argument (d : ZoneRow) (db : List ZoneRow)
    (now : CalDateTime) (st : Option Bool) (v : Bool) (loc loc2 : List Char) :
    (getDaylightStatusS (some d) db now st loc).1 =
      (getDaylightStatusS (some d) db now st loc2).1 ∧
    (getDaylightStatusS (some d) db now st loc).2 = st ∧
    (getDaylightStatusS none db now (some v) loc).1 = v ∧
    (getDaylightStatusS none db now (some v) loc).1 =
      (getDaylightStatusS none db now (some v) loc2).1 ∧
    ((getDaylightStatusS none db now none loc).2 =
        some (getDaylightStatusS none db now none loc).1 ∨
      ((getDaylightStatusS none db now none loc).2 = none ∧
        (getDaylightStatusS none db now none loc).1 = false)) := by
  refine ⟨rfl, rfl, rfl, rfl, ?_⟩
  simp only [getDaylightStatusS]
  cases h : db.find? (fun tz => tz.tz_id = loc) with
  | none => simp
  | some tz =>
    by_cases hr : tz.dst_rule = ['0', '0']
    · simp [hr]
    · simp [hr]
